import Mathlib

/-!
# Alarm scheduler (EECS3221-A2): shallow embedding and verified properties

Two C programs are embedded, each in its own namespace:

* `NewAlarmMutex` : `new_alarm_mutex.c` (main thread, one alarm thread, display threads
  sharing the condition variable `display_1`);
* `AlarmMutex`    : `alarm_mutex.c` (main thread and three display threads with the
  condition variables `alarm_cond1..3`).

Conventions of the embedding.

* The singly linked `alarm_list` (its `link` field) is a `List alarm_t`; the head of the
  list is the entry `alarm_list` points to.
* C `int` and `time_t` values are `Int` (no arithmetic in the modelled code overflows on
  the inputs considered); a `pthread_t` handle is a `Nat` below `2 ^ 64`, and the
  decrement `--h` wraps modulo `2 ^ 64`.
* `char message[64]` is a `String`; `strcpy` is assignment.
* Every pthread call returns status 0; the calls that matter are recorded as events.
* `time (NULL)` is an input of the function that calls it.
-/

/-! ## Shared: the outcome of a call -/

/-- How a function of the program ends. -/
inductive Status where
  | ok
  | err_abort (text : String)
deriving DecidableEq, Repr

/-- Modelled from the spec: the macro `err_abort` comes from `errors.h`, which is not
among the sources. Following the spec's `AlarmNotFound` (the operation "fails" and the
failure is reported to whoever called it), a call `err_abort (status, text)` ends the
calling function at once with the failure `Status.err_abort text`; no statement after
it is executed and nothing written before it is undone. -/
def err_abort (text : String) : Status := Status.err_abort text

/-! ## Shared: the C library calls of `main`, and the parsing both `main`s do

Both files have the same `main` up to the calls of `alarm_insert` and `alarm_edit`
(`new_alarm_mutex.c` lines 441-487, `alarm_mutex.c` lines 398-444). C strings are
`List Char` without the terminating NUL. -/

namespace Libc

/-- The test `isspace` in the "C" locale: blank, \t, \n, \v, \f, \r. -/
def isspace (c : Char) : Bool :=
  c.toNat = 32 || (9 ≤ c.toNat && c.toNat ≤ 13)

/-- The test `isdigit`. -/
def isdigit (c : Char) : Bool :=
  48 ≤ c.toNat && c.toNat ≤ 57

/-- The number written by a string of decimal digits. -/
def decimal (ds : List Char) : Nat :=
  ds.foldl (fun acc c => 10 * acc + (c.toNat - 48)) 0

/-- The value `strtol` gives for a number outside the range of `long`: the nearest
bound. -/
def clamp_long (v : Int) : Int :=
  if v > 2 ^ 63 - 1 then 2 ^ 63 - 1 else if v < -(2 ^ 63) then -(2 ^ 63) else v

/-- The conversion of a `long` to `int`: the low 32 bits, read as signed. -/
def to_int (v : Int) : Int :=
  if v % 2 ^ 32 < 2 ^ 31 then v % 2 ^ 32 else v % 2 ^ 32 - 2 ^ 32

/-- An optional sign and a run of digits at the start of `input`, as `strtol` base 10
reads them after the white space: the `int` obtained and the unread rest, or `none`
when there is no digit. -/
def signed_digits (input : List Char) : Option (Int × List Char) :=
  let body :=
    if input.head? = some '-' ∨ input.head? = some '+' then input.tail else input
  let ds := body.takeWhile isdigit
  if ds = [] then none
  else
    some (to_int (clamp_long
        (if input.head? = some '-' then -(decimal ds : Int) else (decimal ds : Int))),
      body.dropWhile isdigit)

/-- The call `atoi (s)`: white space is skipped, then sign and digits are converted; 0
when there is no digit. -/
def atoi (s : List Char) : Int :=
  match signed_digits (s.dropWhile isspace) with
  | none => 0
  | some r => r.1

/-- The conversion `%s` of `sscanf`: white space is skipped, then the longest run of
non-space characters is stored; it fails at the end of the input. -/
def scan_s (input : List Char) : Option (List Char × List Char) :=
  let rest := input.dropWhile isspace
  let word := rest.takeWhile (fun c => !isspace c)
  if word = [] then none else some (word, rest.dropWhile (fun c => !isspace c))

/-- The conversion `%d` of `sscanf`: white space is skipped, then sign and digits are
converted. -/
def scan_d (input : List Char) : Option (Int × List Char) :=
  signed_digits (input.dropWhile isspace)

/-- The conversion `%64[^\n]` of `sscanf`: at most 64 characters other than newline,
and at least one. -/
def scan_set (input : List Char) : Option (List Char) :=
  let m := (input.takeWhile (fun c => c.toNat ≠ 10)).take 64
  if m = [] then none else some m

/-- The call `sscanf (line, "%s %d %64[^\n]", request, &seconds, message)`: the three
values stored when it returns 3, `none` when it returns less. -/
def sscanf (line : List Char) : Option (List Char × Int × List Char) :=
  match scan_s line with
  | none => none
  | some w =>
    match scan_d w.2 with
    | none => none
    | some d =>
      match scan_set (d.2.dropWhile isspace) with
      | none => none
      | some message => some (w.1, d.1, message)

/-- The call `strtok (s, delim)` with a one-character `delim`: leading delimiters are
skipped; the token runs to the next delimiter (overwritten with NUL) or to the end.
Returns the token (`none` is `NULL`) and the position kept for `strtok (NULL, ...)`. -/
def strtok (s : List Char) (delim : Char) : Option (List Char) × List Char :=
  let start := s.dropWhile (fun c => c = delim)
  if start = [] then (none, [])
  else (some (start.takeWhile (fun c => c ≠ delim)),
    (start.dropWhile (fun c => c ≠ delim)).tail)

end Libc

/-- The two commands `main` accepts. -/
inductive Command where
  | Start_Alarm
  | Change_Alarm
deriving DecidableEq, Repr

/-- What `main` does with one input line, before any call into the alarm list. -/
inductive Outcome where
  | skipped
  | bad_command
  | fault
  | ignored
  | call (command : Command) (id seconds : Int) (message : List Char)
deriving DecidableEq, Repr

/-- The three strings `main` looks at after its `strtok` calls: `comm`, `id` (`none` is
`NULL`) and the contents of the buffer `request` itself. -/
structure Tokens where
  comm : Option (List Char)
  id : Option (List Char)
  request : List Char
deriving DecidableEq, Repr

/-- The `strtok` calls of `main` (`new_alarm_mutex.c` lines 462-466). `id` is assigned
only when `comm` and `num` are not `NULL` and `num` contains ")"; otherwise it keeps
the pointer it had (from an earlier line, or uninitialised), and `stale` is the string
that pointer designates now. The first `strtok` ends `request` after its first
token. -/
def main_tokens (request : List Char) (stale : Option (List Char)) : Tokens :=
  let t1 := Libc.strtok request '('
  let t2 := Libc.strtok t1.2 '('
  let id :=
    match t1.1, t2.1 with
    | some _, some num => if ')' ∈ num then (Libc.strtok num ')').1 else stale
    | _, _ => stale
  { comm := t1.1, id := id,
    request := request.takeWhile (fun c => c = '(')
      ++ (request.dropWhile (fun c => c = '(')).takeWhile (fun c => c ≠ '(') }

/-- The `for` loop of `main` over the characters of `id` (lines 476-482): the first
character that is not a digit sets `isDigit` to 1 and ends the loop. -/
def digit_loop : List Char → Int → Int
  | [], isDigit => isDigit
  | c :: p, isDigit => if !Libc.isdigit c then 1 else digit_loop p isDigit

/-- The body of `main`'s loop for one `line` read by `fgets`, up to the call of
`alarm_insert` or `alarm_edit` (lines 444-488 and 508). `isDigit` is the flag as the
earlier lines left it (0 at program start); the new value is returned with the
outcome. `Outcome.fault` is `strcmp (comm, ...)` on a `NULL` `comm`. -/
def main_parse (isDigit : Int) (line : List Char) (stale : Option (List Char)) :
    Int × Outcome :=
  if line.length ≤ 1 then (isDigit, Outcome.skipped)
  else
    match Libc.sscanf line with
    | none => (isDigit, Outcome.bad_command)
    | some (request, seconds, message) =>
      let t := main_tokens request stale
      match t.id with
      | none => (isDigit, Outcome.bad_command)
      | some id =>
        if id.length = 0 then (isDigit, Outcome.bad_command)
        else
          match t.comm with
          | none => (isDigit, Outcome.fault)
          | some comm =>
            if comm ≠ "Change_Alarm".toList ∧ comm ≠ "Start_Alarm".toList then
              (isDigit, Outcome.bad_command)
            else
              let isDigit1 := digit_loop id isDigit
              if isDigit1 = 0 then
                let numid := Libc.atoi id
                if numid ≥ 0 then
                  if t.request = "Start_Alarm".toList then
                    (isDigit1, Outcome.call Command.Start_Alarm numid seconds message)
                  else if t.request = "Change_Alarm".toList then
                    (isDigit1, Outcome.call Command.Change_Alarm numid seconds message)
                  else (isDigit1, Outcome.ignored)
                else (isDigit1, Outcome.ignored)
              else (isDigit1, Outcome.ignored)

/-! ## Part 1: `new_alarm_mutex.c` -/

namespace NewAlarmMutex

/-- The record `alarm_t` of `new_alarm_mutex.c`, without `link` (the list carries it). -/
structure alarm_t where
  seconds : Int
  time : Int
  message : String
  id : Int
  thread : Int
deriving DecidableEq, Repr

/-- The condition variables of `new_alarm_mutex.c`. -/
inductive Cond where
  | alarm_cond
  | display_1
deriving DecidableEq, Repr

/-- What the program does that is visible outside the shared variables: condition
signals, thread creation and cancellation, and the lines it prints. -/
inductive Event where
  | signal (c : Cond)
  | pthread_create (slot : Nat)
  | pthread_cancel (slot : Nat)
  | created (thread id t seconds : Int) (message : String)
  | assigned (slot : Nat) (id t seconds : Int) (message : String)
  | terminated (thread t : Int)
  | received (thread seconds : Int) (message : String)
  | progress (id t : Int) (message : String)
  | expired (thread t seconds : Int) (message : String)
  | removed (id t seconds : Int)
deriving DecidableEq, Repr

/-- The global variables of `new_alarm_mutex.c`. -/
structure State where
  alarm_list : List alarm_t
  current_alarm : Int
  thread1count : Int
  thread2count : Int
  thread3count : Int
  thread1 : Int
  thread2 : Int
  thread3 : Int
  display_thread_count : Int
  curr_alarm : Option alarm_t
deriving DecidableEq, Repr

/-- The values the globals are initialised with. -/
def State.init : State :=
  { alarm_list := [], current_alarm := 0,
    thread1count := 0, thread2count := 0, thread3count := 0,
    thread1 := 0, thread2 := 0, thread3 := 0,
    display_thread_count := 0, curr_alarm := none }

/-- The list part of `alarm_insert` (lines 81-103): walk the list, splice `alarm` in
front of the first `next` with `next->id >= alarm->id`, or append it when the walk
reaches `NULL`. -/
def alarm_insert_list : List alarm_t → alarm_t → List alarm_t
  | [], alarm => [alarm]
  | next :: rest, alarm =>
    if next.id ≥ alarm.id then alarm :: next :: rest
    else next :: alarm_insert_list rest alarm

/-- The function `alarm_insert` (lines 65-122): the splice, then the wake-up test on
`current_alarm`. Returns the new globals and the events (at most one signal). -/
def alarm_insert (s : State) (alarm : alarm_t) : State × List Event :=
  let s1 := { s with alarm_list := alarm_insert_list s.alarm_list alarm }
  if s1.current_alarm = 0 ∨ alarm.id < s1.current_alarm then
    ({ s1 with current_alarm := alarm.id }, [Event.signal Cond.alarm_cond])
  else
    (s1, [])

/-- The `while` loop of `alarm_edit` (lines 379-394). Returns the value of `next` when
the loop is left (`none` is `NULL`), the list after the store `*last = next`, and the
request `alarm` after the two copies into it. -/
def alarm_edit_loop : List alarm_t → alarm_t → Option alarm_t × List alarm_t × alarm_t
  | [], alarm => (none, [], alarm)
  | next :: rest, alarm =>
    if next.id = alarm.id then
      (some next, next :: rest,
        { alarm with message := next.message, seconds := next.seconds })
    else
      let r := alarm_edit_loop rest alarm
      (r.1, next :: r.2.1, r.2.2)

/-- What `alarm_edit` leaves behind: how it ended, the globals, and the request record
`alarm` it was passed (the function writes to it). -/
structure EditResult where
  status : Status
  state : State
  alarm : alarm_t
deriving DecidableEq, Repr

/-- The function `alarm_edit` (lines 367-408). -/
def alarm_edit (s : State) (alarm : alarm_t) : EditResult :=
  let r := alarm_edit_loop s.alarm_list alarm
  let s1 := { s with alarm_list := r.2.1 }
  match r.1 with
  | none => { status := err_abort "Not found", state := s1, alarm := r.2.2 }
  | some _ => { status := Status.ok, state := s1, alarm := r.2.2 }

/-- The local variables of `alarm_thread` that live across iterations of its loop: the
three `pthread_t` handles. They are not initialised, so their first values are
arbitrary. -/
structure Locals where
  display1thread : Nat
  display2thread : Nat
  display3thread : Nat
deriving DecidableEq, Repr

/-- The conversion `(int) h` of a `pthread_t`: the low 32 bits, read as signed. -/
def toInt (h : Nat) : Int :=
  if h % 2 ^ 32 < 2 ^ 31 then ((h % 2 ^ 32 : Nat) : Int)
  else ((h % 2 ^ 32 : Nat) : Int) - 2 ^ 32

/-- The value of `--h` for an unsigned 64-bit `h`: `h - 1` modulo `2 ^ 64`, so that
decrementing 0 gives `2 ^ 64 - 1`. -/
def decr (h : Nat) : Nat :=
  if h % 2 ^ 64 = 0 then 2 ^ 64 - 1 else h % 2 ^ 64 - 1

/-- The block of lines 251-283 of `alarm_thread`: the first slot whose flag is 0 gets a
new display thread (its handle is `handle`, the value `pthread_create` stores), its
flag is set, its count grows by one and `alarm->thread` receives the handle. -/
def create_display (s : State) (L : Locals) (alarm : alarm_t) (handle : Nat) (now : Int) :
    State × Locals × alarm_t × List Event :=
  if s.thread1 = 0 then
    let L1 := { L with display1thread := handle }
    let s1 := { s with thread1 := 1, thread1count := s.thread1count + 1 }
    let a1 := { alarm with thread := toInt L1.display1thread }
    (s1, L1, a1, [Event.pthread_create 1,
      Event.created a1.thread a1.id now a1.seconds a1.message])
  else if s.thread2 = 0 then
    let L1 := { L with display2thread := handle }
    let s1 := { s with thread2 := 1, thread2count := s.thread2count + 1 }
    let a1 := { alarm with thread := toInt L1.display2thread }
    (s1, L1, a1, [Event.pthread_create 2,
      Event.created a1.thread a1.id now a1.seconds a1.message])
  else if s.thread3 = 0 then
    let L1 := { L with display3thread := handle }
    let s1 := { s with thread3 := 1, thread3count := s.thread3count + 1 }
    let a1 := { alarm with thread := toInt L1.display3thread }
    (s1, L1, a1, [Event.pthread_create 3,
      Event.created (toInt L1.display3thread) a1.id now a1.seconds a1.message])
  else
    (s, L, alarm, [])

/-- The statement of lines 291-307 of `alarm_thread`: when `display_thread_count >= 3`
and `created == 0`, the alarm is given to the display thread with the smallest count. -/
def assign_existing (s : State) (L : Locals) (alarm : alarm_t) (created : Int) (now : Int) :
    alarm_t × List Event :=
  if s.display_thread_count ≥ 3 ∧ created = 0 then
    if s.thread1count ≤ s.thread2count ∧ s.thread1count ≤ s.thread3count then
      ({ alarm with thread := toInt L.display1thread },
        [Event.assigned 1 alarm.id now alarm.seconds alarm.message])
    else if s.thread2count ≤ s.thread3count ∧ s.thread2count ≤ s.thread1count then
      ({ alarm with thread := toInt L.display2thread },
        [Event.assigned 2 alarm.id now alarm.seconds alarm.message])
    else
      ({ alarm with thread := toInt L.display3thread },
        [Event.assigned 3 alarm.id now alarm.seconds alarm.message])
  else
    (alarm, [])

/-- The three statements of lines 328-353 of `alarm_thread`: each handle is decremented,
and a handle that becomes 0 has its slot's flag cleared, `display_thread_count` lowered
and `pthread_cancel` called. All three messages print `display1thread`. -/
def teardown (s : State) (L : Locals) (now : Int) : State × Locals × List Event :=
  let L1 := { L with display1thread := decr L.display1thread }
  let r1 : State × List Event :=
    if L1.display1thread = 0 then
      ({ s with thread1 := 0, display_thread_count := s.display_thread_count - 1 },
        [Event.terminated (toInt L1.display1thread) now, Event.pthread_cancel 1])
    else (s, [])
  let L2 := { L1 with display2thread := decr L1.display2thread }
  let r2 : State × List Event :=
    if L2.display2thread = 0 then
      ({ r1.1 with thread2 := 0, display_thread_count := r1.1.display_thread_count - 1 },
        [Event.terminated (toInt L2.display1thread) now, Event.pthread_cancel 2])
    else (r1.1, [])
  let L3 := { L2 with display3thread := decr L2.display3thread }
  let r3 : State × List Event :=
    if L3.display3thread = 0 then
      ({ r2.1 with thread3 := 0, display_thread_count := r2.1.display_thread_count - 1 },
        [Event.terminated (toInt L3.display1thread) now, Event.pthread_cancel 3])
    else (r2.1, [])
  (r3.1, L3, r1.2 ++ r2.2 ++ r3.2)

/-- The statement of lines 248-249 of `alarm_thread`:
`if (display_thread_count < 3) display_thread_count++;`. -/
def count_display (s : State) : State :=
  if s.display_thread_count < 3 then
    { s with display_thread_count := s.display_thread_count + 1 }
  else s

/-- The part of an iteration of `alarm_thread` that follows the wait (lines 228-354):
`alarm` is the head just read from `alarm_list` and `link` its `link` field.
`curr_alarm` points to the record taken off the list, so the state returned holds
that record with the fields written later in the iteration. -/
def alarm_thread_dispatch (s : State) (alarm : alarm_t) (link : List alarm_t) (L : Locals)
    (handle : Nat) (now : Int) : State × Locals × List Event :=
  let s1 := { s with alarm_list := link }
  let s2 := count_display s1
  -- `created = 1;` is not governed by the `if` above it: it is always executed
  let created : Int := 1
  let c := create_display s2 L alarm handle now
  let a := assign_existing c.1 c.2.1 c.2.2.1 created now
  let t := teardown c.1 c.2.1 now
  ({ t.1 with curr_alarm := some a.1 }, t.2.1,
    c.2.2.2 ++ a.2 ++ [Event.signal Cond.display_1, Event.signal Cond.display_1] ++ t.2.2)

/-- One iteration of the `while (1)` loop of `alarm_thread` (lines 205-364), from a
state in which the thread holds the mutex. `handle` is the handle a `pthread_create`
of this iteration stores, `now` the value of `time (NULL)` during it. The result is
`none` when `alarm_list` is empty: the thread then stays in `pthread_cond_wait`. -/
def alarm_thread_iteration (s : State) (L : Locals) (handle : Nat) (now : Int) :
    Option (State × Locals × List Event) :=
  let s0 := { s with current_alarm := 0 }
  match s0.alarm_list with
  | [] => none
  | alarm :: link => some (alarm_thread_dispatch s0 alarm link L handle now)

/-- The `do ... while` loop of `display_thread` (lines 157-161). `clk k` is the value
returned by the `k`-th call of `time (NULL)` in the pass and `i` the number of calls
made so far; each round makes two calls (one in `printf`, one in the loop test).
Returns the lines printed and the number of calls made, or `none` when `fuel` rounds
did not end the loop. -/
def display_loop : Nat → alarm_t → (Nat → Int) → Nat → Option (List Event × Nat)
  | 0, _, _, _ => none
  | fuel + 1, alarm, clk, i =>
    let line := Event.progress alarm.id (clk i) alarm.message
    if alarm.time > clk (i + 1) then
      match display_loop fuel alarm clk (i + 2) with
      | none => none
      | some r => some (line :: r.1, r.2)
    else some ([line], i + 2)

/-- One pass of the `while (1)` loop of `display_thread` (lines 136-179), after the
thread has been woken from `pthread_cond_wait`. `alarm` is the record `curr_alarm`
pointed to when the pass read it (line 149). -/
def display_thread (fuel : Nat) (s : State) (alarm : alarm_t) (clk : Nat → Int) :
    Option (State × List Event) :=
  let first := Event.received alarm.thread alarm.seconds alarm.message
  match display_loop fuel alarm clk 1 with
  | none => none
  | some r =>
    let s1 :=
      if alarm.thread = 1 then { s with thread1count := s.thread1count - 1 }
      else if alarm.thread = 2 then { s with thread2count := s.thread2count - 1 }
      else { s with thread3count := s.thread3count - 1 }
    some (s1, first :: r.1 ++
      [Event.expired alarm.thread (clk r.2) alarm.seconds alarm.message,
       Event.removed alarm.id (clk (r.2 + 1)) alarm.seconds])

/-- The pool state read by the choice of a display thread: the three flags
`thread1..3` and the three counts `thread1count..3`. -/
def pool (s : State) : (Int × Int × Int) × (Int × Int × Int) :=
  ((s.thread1, s.thread2, s.thread3), (s.thread1count, s.thread2count, s.thread3count))

/-! ### Histories of the pending list -/

/-- What can happen to the shared state: the main thread calls `alarm_insert`, or the
alarm thread runs one iteration of its loop (which takes the head off the list). -/
inductive Op where
  | insert (alarm : alarm_t)
  | dispatch (handle : Nat) (now : Int)
deriving DecidableEq, Repr

/-- The effect of one `Op` on the globals and the alarm thread's handles. An alarm
thread that finds the list empty has set `current_alarm` to 0 and waits. -/
def step (c : State × Locals) : Op → State × Locals
  | Op.insert alarm => ((alarm_insert c.1 alarm).1, c.2)
  | Op.dispatch handle now =>
    match alarm_thread_iteration c.1 c.2 handle now with
    | none => ({ c.1 with current_alarm := 0 }, c.2)
    | some r => (r.1, r.2.1)

/-- The state after a history `ops`, oldest first. -/
def run (c : State × Locals) (ops : List Op) : State × Locals :=
  ops.foldl step c

/-- Ghost copy of `alarm_insert_list` on entries that carry, next to the record, the
position in the history of the `alarm_insert` call that added them. -/
def stamped_insert : List (Nat × alarm_t) → Nat × alarm_t → List (Nat × alarm_t)
  | [], e => [e]
  | next :: rest, e =>
    if next.2.id ≥ e.2.id then e :: next :: rest
    else next :: stamped_insert rest e

/-- Ghost copy of `step` on the stamped list; `n` is the position of `op`. -/
def stamped_step (n : Nat) (l : List (Nat × alarm_t)) : Op → List (Nat × alarm_t)
  | Op.insert alarm => stamped_insert l (n, alarm)
  | Op.dispatch _ _ => l.tail

/-- Ghost copy of `run`: the pending list with insertion positions, after `ops`,
where the first of `ops` has position `n`. -/
def stamped_run : Nat → List (Nat × alarm_t) → List Op → List (Nat × alarm_t)
  | _, l, [] => l
  | n, l, op :: ops => stamped_run (n + 1) (stamped_step n l op) ops

/-- The order of two stamped entries `x` before `y` in the pending list: ids do not
decrease, and of two entries with the same id the one inserted later comes first. -/
def newest_first (x y : Nat × alarm_t) : Prop :=
  x.2.id < y.2.id ∨ (x.2.id = y.2.id ∧ y.1 < x.1)

instance (x y : Nat × alarm_t) : Decidable (newest_first x y) := by
  unfold newest_first
  infer_instance

/-- The property "the head of the list has the minimum `time` of the list". -/
def head_is_earliest : List alarm_t → Prop
  | [] => True
  | hd :: tl => ∀ a ∈ tl, hd.time ≤ a.time

instance : DecidablePred head_is_earliest := fun l =>
  match l with
  | [] => isTrue trivial
  | hd :: tl => inferInstanceAs (Decidable (∀ a ∈ tl, hd.time ≤ a.time))

/-! ### The main thread -/

/-- A call `main` makes into the alarm list, with the record it passes. -/
inductive Call where
  | alarm_insert (alarm : alarm_t)
  | alarm_edit (alarm : alarm_t)
deriving DecidableEq, Repr

/-- The record a `Call` passes. -/
def Call.alarm : Call → alarm_t
  | Call.alarm_insert alarm => alarm
  | Call.alarm_edit alarm => alarm

/-- What one turn of `main`'s loop takes from outside: the line `fgets` read, the
string a not reassigned `id` designates, the contents of the record `malloc` returned,
and `time (NULL)`. -/
structure Input where
  line : List Char
  stale : Option (List Char)
  fresh : alarm_t
  now : Int
deriving DecidableEq, Repr

/-- What one turn of `main`'s loop leaves: the flag `isDigit`, the globals, the calls
made, and whether the turn ended in a fault. -/
structure MainStep where
  isDigit : Int
  state : State
  calls : List Call
  fault : Bool
deriving DecidableEq, Repr

/-- One turn of the `while (1)` loop of `main` (lines 441-526). -/
def main_iteration (isDigit : Int) (s : State) (i : Input) : MainStep :=
  let p := main_parse isDigit i.line i.stale
  match p.2 with
  | Outcome.call Command.Start_Alarm id seconds message =>
    let alarm := { i.fresh with
      seconds := seconds, message := String.mk message, id := id, time := i.now + seconds }
    { isDigit := p.1, state := (alarm_insert s alarm).1,
      calls := [Call.alarm_insert alarm], fault := false }
  | Outcome.call Command.Change_Alarm id seconds message =>
    let alarm := { i.fresh with seconds := seconds, message := String.mk message, id := id }
    { isDigit := p.1, state := (alarm_edit s alarm).state,
      calls := [Call.alarm_edit alarm], fault := false }
  | Outcome.fault => { isDigit := p.1, state := s, calls := [], fault := true }
  | _ => { isDigit := p.1, state := s, calls := [], fault := false }

/-- The loop of `main` over the lines of the input, until the input ends (`fgets`
returns `NULL`) or a turn faults: the flag, the globals and all calls made. -/
def main_loop (isDigit : Int) (s : State) : List Input → Int × State × List Call
  | [] => (isDigit, s, [])
  | i :: rest =>
    let r := main_iteration isDigit s i
    if r.fault then (r.isDigit, r.state, r.calls)
    else
      let q := main_loop r.isDigit r.state rest
      (q.1, q.2.1, r.calls ++ q.2.2)

end NewAlarmMutex

/-! ## Part 2: `alarm_mutex.c` -/

namespace AlarmMutex

/-- The record `alarm_t` of `alarm_mutex.c`, without `link` (the list carries it). -/
structure alarm_t where
  seconds : Int
  time : Int
  message : String
  id : Int
deriving DecidableEq, Repr

/-- The condition variables `alarm_insert` signals in `alarm_mutex.c`. -/
inductive Cond where
  | alarm_cond1
  | alarm_cond2
  | alarm_cond3
deriving DecidableEq, Repr

/-- The signals and printed lines of `alarm_insert` in `alarm_mutex.c`. -/
inductive Event where
  | signal (c : Cond)
  | created (slot : Nat) (id t : Int) (message : String)
deriving DecidableEq, Repr

/-- The global variables of `alarm_mutex.c`. -/
structure State where
  alarm_list : List alarm_t
  display1_count : Int
  display2_count : Int
  display3_count : Int
  current_alarm : Int
  current_alarm_1 : Int
  current_alarm_2 : Int
  current_alarm_3 : Int
deriving DecidableEq, Repr

/-- The values the globals are initialised with. -/
def State.init : State :=
  { alarm_list := [], display1_count := 0, display2_count := 0, display3_count := 0,
    current_alarm := 0, current_alarm_1 := 0, current_alarm_2 := 0, current_alarm_3 := 0 }

/-- The list part of `alarm_insert` (lines 73-92): splice `alarm` in front of the first
`next` with `next->id >= alarm->id`, or append it. -/
def alarm_insert_list : List alarm_t → alarm_t → List alarm_t
  | [], alarm => [alarm]
  | next :: rest, alarm =>
    if next.id ≥ alarm.id then alarm :: next :: rest
    else next :: alarm_insert_list rest alarm

/-- The function `alarm_insert` of `alarm_mutex.c` (lines 61-129): the splice, then the
three-way choice of a display thread to signal. `now` is `time (NULL)`. -/
def alarm_insert (s : State) (alarm : alarm_t) (now : Int) : State × List Event :=
  let s1 := { s with alarm_list := alarm_insert_list s.alarm_list alarm }
  if (s1.current_alarm_1 = 0 ∨ alarm.time < s1.current_alarm_1)
      ∧ s1.display1_count ≤ s1.display2_count ∧ s1.display1_count ≤ s1.display2_count then
    ({ s1 with current_alarm_1 := alarm.time, display1_count := s1.display1_count + 1 },
      [Event.created 1 alarm.id now alarm.message, Event.signal Cond.alarm_cond1])
  else if (s1.current_alarm_2 = 0 ∨ alarm.time < s1.current_alarm_2)
      ∧ s1.display2_count ≤ s1.display1_count ∧ s1.display2_count ≤ s1.display3_count then
    ({ s1 with current_alarm_2 := alarm.time, display2_count := s1.display2_count + 1 },
      [Event.created 2 alarm.id now alarm.message, Event.signal Cond.alarm_cond2])
  else if (s1.current_alarm_3 = 0 ∨ alarm.time < s1.current_alarm_3)
      ∧ s1.display3_count ≤ s1.display1_count ∧ s1.display3_count ≤ s1.display2_count then
    ({ s1 with current_alarm_3 := alarm.time, display3_count := s1.display3_count + 1 },
      [Event.created 3 alarm.id now alarm.message, Event.signal Cond.alarm_cond3])
  else
    (s1, [])

/-- The `while` loop of `alarm_edit` (lines 146-158); its `printf` of the two ids is
left out. Returns the value of `next` when the loop is left (`none` is `NULL`), the
list after the store `*last = next`, and the request `alarm` after the copies. -/
def alarm_edit_loop : List alarm_t → alarm_t → Option alarm_t × List alarm_t × alarm_t
  | [], alarm => (none, [], alarm)
  | next :: rest, alarm =>
    if next.id = alarm.id then
      (some next, next :: rest,
        { alarm with message := next.message, seconds := next.seconds })
    else
      let r := alarm_edit_loop rest alarm
      (r.1, next :: r.2.1, r.2.2)

/-- What `alarm_edit` leaves behind: how it ended, the globals, and the request record
`alarm` it was passed. -/
structure EditResult where
  status : Status
  state : State
  alarm : alarm_t
deriving DecidableEq, Repr

/-- The function `alarm_edit` of `alarm_mutex.c` (lines 134-172). -/
def alarm_edit (s : State) (alarm : alarm_t) : EditResult :=
  let r := alarm_edit_loop s.alarm_list alarm
  let s1 := { s with alarm_list := r.2.1 }
  match r.1 with
  | none => { status := err_abort "Not found", state := s1, alarm := r.2.2 }
  | some _ => { status := Status.ok, state := s1, alarm := r.2.2 }

/-- The state after a sequence of `alarm_insert` calls, all made at time `now`. -/
def insert_all (s : State) (alarms : List alarm_t) (now : Int) : State :=
  alarms.foldl (fun st alarm => (alarm_insert st alarm now).1) s

/-- The property "the head of the list has the minimum `time` of the list". -/
def head_is_earliest : List alarm_t → Prop
  | [] => True
  | hd :: tl => ∀ a ∈ tl, hd.time ≤ a.time

instance : DecidablePred head_is_earliest := fun l =>
  match l with
  | [] => isTrue trivial
  | hd :: tl => inferInstanceAs (Decidable (∀ a ∈ tl, hd.time ≤ a.time))

/-- What can happen to the pending list of `alarm_mutex.c`: a call of `alarm_insert`
(by `main`, or by a display thread putting back an alarm that has not expired), or a
display thread taking the head (`alarm = alarm_list; alarm_list = alarm->link;`,
lines 195-196, 250-251 and 305-306), which it does only when the list is not empty. -/
inductive Op where
  | insert (alarm : alarm_t) (now : Int)
  | take_head
deriving DecidableEq, Repr

/-- The effect of one `Op` on the globals. -/
def step (s : State) : Op → State
  | Op.insert alarm now => (alarm_insert s alarm now).1
  | Op.take_head => { s with alarm_list := s.alarm_list.tail }

/-- The state after a history `ops`, oldest first. -/
def run (s : State) (ops : List Op) : State :=
  ops.foldl step s

/-! ### The main thread -/

/-- A call `main` makes into the alarm list, with the record it passes. -/
inductive Call where
  | alarm_insert (alarm : alarm_t)
  | alarm_edit (alarm : alarm_t)
deriving DecidableEq, Repr

/-- The record a `Call` passes. -/
def Call.alarm : Call → alarm_t
  | Call.alarm_insert alarm => alarm
  | Call.alarm_edit alarm => alarm

/-- What one turn of `main`'s loop takes from outside: the line `fgets` read, the
string a not reassigned `id` designates, the contents of the record `malloc` returned,
and `time (NULL)`. -/
structure Input where
  line : List Char
  stale : Option (List Char)
  fresh : alarm_t
  now : Int
deriving DecidableEq, Repr

/-- What one turn of `main`'s loop leaves: the flag `isDigit`, the globals, the calls
made, and whether the turn ended in a fault. -/
structure MainStep where
  isDigit : Int
  state : State
  calls : List Call
  fault : Bool
deriving DecidableEq, Repr

/-- One turn of the `while (1)` loop of `main` (lines 398-487). -/
def main_iteration (isDigit : Int) (s : State) (i : Input) : MainStep :=
  let p := main_parse isDigit i.line i.stale
  match p.2 with
  | Outcome.call Command.Start_Alarm id seconds message =>
    let alarm := { i.fresh with
      seconds := seconds, message := String.mk message, id := id, time := i.now + seconds }
    { isDigit := p.1, state := (alarm_insert s alarm i.now).1,
      calls := [Call.alarm_insert alarm], fault := false }
  | Outcome.call Command.Change_Alarm id seconds message =>
    let alarm := { i.fresh with seconds := seconds, message := String.mk message, id := id }
    { isDigit := p.1, state := (alarm_edit s alarm).state,
      calls := [Call.alarm_edit alarm], fault := false }
  | Outcome.fault => { isDigit := p.1, state := s, calls := [], fault := true }
  | _ => { isDigit := p.1, state := s, calls := [], fault := false }

/-- The loop of `main` over the lines of the input, until the input ends (`fgets`
returns `NULL`) or a turn faults: the flag, the globals and all calls made. -/
def main_loop (isDigit : Int) (s : State) : List Input → Int × State × List Call
  | [] => (isDigit, s, [])
  | i :: rest =>
    let r := main_iteration isDigit s i
    if r.fault then (r.isDigit, r.state, r.calls)
    else
      let q := main_loop r.isDigit r.state rest
      (q.1, q.2.1, r.calls ++ q.2.2)

end AlarmMutex

/-! ## Part 3: properties of `new_alarm_mutex.c` and of the code both files share -/

namespace NewAlarmMutex

theorem alarm_insert_alarm_list (s : State) (alarm : alarm_t) :
    (alarm_insert s alarm).1.alarm_list = alarm_insert_list s.alarm_list alarm := by
  simp only [alarm_insert]
  split <;> rfl

/-- C1 (fails on the code): after `Start_Alarm(1): 100 a` and `Start_Alarm(2): 50 b`,
both entered at time 1000, the head of `alarm_list` is the alarm with deadline 1100
although an alarm with deadline 1050 is pending; this holds for the `alarm_insert` of
`new_alarm_mutex.c` and for the one of `alarm_mutex.c`. -/
theorem C1_head_is_not_earliest :
    ¬ head_is_earliest
        (run (State.init, ⟨0, 0, 0⟩)
          [Op.insert ⟨100, 1100, "a", 1, 0⟩, Op.insert ⟨50, 1050, "b", 2, 0⟩]).1.alarm_list
    ∧ ¬ AlarmMutex.head_is_earliest
        (AlarmMutex.insert_all AlarmMutex.State.init
          [⟨100, 1100, "a", 1⟩, ⟨50, 1050, "b", 2⟩] 1000).alarm_list := by
  constructor
  · simp [run, step, alarm_insert, alarm_insert_list, State.init, head_is_earliest]
  · simp [AlarmMutex.insert_all, AlarmMutex.alarm_insert, AlarmMutex.alarm_insert_list,
      AlarmMutex.State.init, AlarmMutex.head_is_earliest]

theorem alarm_edit_loop_list (l : List alarm_t) (alarm : alarm_t) :
    (alarm_edit_loop l alarm).2.1 = l := by
  induction l with
  | nil => rfl
  | cons next rest ih =>
    simp only [alarm_edit_loop]
    split
    · rfl
    · simp [ih]

theorem alarm_edit_loop_none (l : List alarm_t) (alarm : alarm_t)
    (h : ∀ e ∈ l, e.id ≠ alarm.id) :
    (alarm_edit_loop l alarm).1 = none ∧ (alarm_edit_loop l alarm).2.2 = alarm := by
  induction l with
  | nil => exact ⟨rfl, rfl⟩
  | cons next rest ih =>
    have hn : next.id ≠ alarm.id := h next (List.mem_cons_self _ _)
    have hr := ih (fun e he => h e (List.mem_cons_of_mem _ he))
    simp only [alarm_edit_loop, if_neg hn]
    exact hr

theorem alarm_edit_state (s : State) (alarm : alarm_t) :
    (alarm_edit s alarm).state = s := by
  have hl := alarm_edit_loop_list s.alarm_list alarm
  simp only [alarm_edit]
  split <;> simp [hl]

theorem alarm_edit_not_found (s : State) (alarm : alarm_t)
    (h : ∀ e ∈ s.alarm_list, e.id ≠ alarm.id) :
    (alarm_edit s alarm).status = Status.err_abort "Not found"
      ∧ (alarm_edit s alarm).alarm = alarm := by
  have hn := alarm_edit_loop_none s.alarm_list alarm h
  simp only [alarm_edit]
  split
  · exact ⟨rfl, hn.2⟩
  · rename_i x hx
    rw [hn.1] at hx
    cases hx

end NewAlarmMutex

namespace AlarmMutex

theorem am_alarm_edit_loop_list (l : List alarm_t) (alarm : alarm_t) :
    (alarm_edit_loop l alarm).2.1 = l := by
  induction l with
  | nil => rfl
  | cons next rest ih =>
    simp only [alarm_edit_loop]
    split
    · rfl
    · simp [ih]

theorem am_alarm_edit_loop_none (l : List alarm_t) (alarm : alarm_t)
    (h : ∀ e ∈ l, e.id ≠ alarm.id) :
    (alarm_edit_loop l alarm).1 = none ∧ (alarm_edit_loop l alarm).2.2 = alarm := by
  induction l with
  | nil => exact ⟨rfl, rfl⟩
  | cons next rest ih =>
    have hn : next.id ≠ alarm.id := h next (List.mem_cons_self _ _)
    have hr := ih (fun e he => h e (List.mem_cons_of_mem _ he))
    simp only [alarm_edit_loop, if_neg hn]
    exact hr

theorem am_alarm_edit_state (s : State) (alarm : alarm_t) :
    (alarm_edit s alarm).state = s := by
  have hl := am_alarm_edit_loop_list s.alarm_list alarm
  simp only [alarm_edit]
  split <;> simp [hl]

theorem am_alarm_edit_not_found (s : State) (alarm : alarm_t)
    (h : ∀ e ∈ s.alarm_list, e.id ≠ alarm.id) :
    (alarm_edit s alarm).status = Status.err_abort "Not found"
      ∧ (alarm_edit s alarm).alarm = alarm := by
  have hn := am_alarm_edit_loop_none s.alarm_list alarm h
  simp only [alarm_edit]
  split
  · exact ⟨rfl, hn.2⟩
  · rename_i x hx
    rw [hn.1] at hx
    cases hx

end AlarmMutex

namespace NewAlarmMutex

/-- C2: when no entry of the pending list has the id of the request, `alarm_edit` ends
in `err_abort (status, "Not found")` (it does not succeed), and the globals, the
pending list among them, and the request record are what they were before the call.
Stated for `new_alarm_mutex.c` (`s`, `alarm`) and for `alarm_mutex.c` (`s2`, `alarm2`). -/
theorem C2_edit_unknown_id_not_found (s : State) (alarm : alarm_t)
    (s2 : AlarmMutex.State) (alarm2 : AlarmMutex.alarm_t)
    (h : ∀ e ∈ s.alarm_list, e.id ≠ alarm.id)
    (h2 : ∀ e ∈ s2.alarm_list, e.id ≠ alarm2.id) :
    ((alarm_edit s alarm).status = Status.err_abort "Not found"
      ∧ (alarm_edit s alarm).state.alarm_list = s.alarm_list
      ∧ (alarm_edit s alarm).state = s
      ∧ (alarm_edit s alarm).alarm = alarm)
    ∧ ((AlarmMutex.alarm_edit s2 alarm2).status = Status.err_abort "Not found"
      ∧ (AlarmMutex.alarm_edit s2 alarm2).state.alarm_list = s2.alarm_list
      ∧ (AlarmMutex.alarm_edit s2 alarm2).state = s2
      ∧ (AlarmMutex.alarm_edit s2 alarm2).alarm = alarm2) := by
  have a := alarm_edit_not_found s alarm h
  have b := AlarmMutex.am_alarm_edit_not_found s2 alarm2 h2
  have c := alarm_edit_state s alarm
  have d := AlarmMutex.am_alarm_edit_state s2 alarm2
  exact ⟨⟨a.1, by rw [c], c, a.2⟩, ⟨b.1, by rw [d], d, b.2⟩⟩

/-- Witness of C2: a list holding alarms 1 and 3 and a `Change_Alarm(2)` request. -/
theorem C2_edit_unknown_id_not_found_witness :
    ((alarm_edit { State.init with alarm_list := [⟨10, 1010, "a", 1, 0⟩, ⟨20, 1020, "c", 3, 0⟩] }
        ⟨5, 0, "b", 2, 0⟩).status = Status.err_abort "Not found"
      ∧ (alarm_edit { State.init with alarm_list := [⟨10, 1010, "a", 1, 0⟩, ⟨20, 1020, "c", 3, 0⟩] }
        ⟨5, 0, "b", 2, 0⟩).state.alarm_list = [⟨10, 1010, "a", 1, 0⟩, ⟨20, 1020, "c", 3, 0⟩])
    ∧ ((AlarmMutex.alarm_edit
        { AlarmMutex.State.init with alarm_list := [⟨10, 1010, "a", 1⟩, ⟨20, 1020, "c", 3⟩] }
        ⟨5, 0, "b", 2⟩).status = Status.err_abort "Not found"
      ∧ (AlarmMutex.alarm_edit
        { AlarmMutex.State.init with alarm_list := [⟨10, 1010, "a", 1⟩, ⟨20, 1020, "c", 3⟩] }
        ⟨5, 0, "b", 2⟩).state.alarm_list = [⟨10, 1010, "a", 1⟩, ⟨20, 1020, "c", 3⟩]) :=
  have w := C2_edit_unknown_id_not_found
    { State.init with alarm_list := [⟨10, 1010, "a", 1, 0⟩, ⟨20, 1020, "c", 3, 0⟩] }
    ⟨5, 0, "b", 2, 0⟩
    { AlarmMutex.State.init with alarm_list := [⟨10, 1010, "a", 1⟩, ⟨20, 1020, "c", 3⟩] }
    ⟨5, 0, "b", 2⟩
    (by simp [State.init]) (by simp [AlarmMutex.State.init])
  ⟨⟨w.1.1, w.1.2.1⟩, ⟨w.2.1, w.2.2.1⟩⟩

/-- C3 (fails on the code): `Start_Alarm(7): 10 a` entered at time 1000, then
`Change_Alarm(7): 3 b` at time 1002. `alarm_edit` succeeds, the pending entry still has
seconds 10, message "a" and deadline 1010 (the claim: 3, "b", 1005), and it is the
request record whose seconds and message were overwritten with 10 and "a". -/
theorem C3_edit_leaves_entry_unchanged :
    (alarm_edit (alarm_insert State.init ⟨10, 1010, "a", 7, 0⟩).1 ⟨3, 0, "b", 7, 0⟩).status
        = Status.ok
    ∧ (alarm_edit (alarm_insert State.init ⟨10, 1010, "a", 7, 0⟩).1
        ⟨3, 0, "b", 7, 0⟩).state.alarm_list = [⟨10, 1010, "a", 7, 0⟩]
    ∧ (alarm_edit (alarm_insert State.init ⟨10, 1010, "a", 7, 0⟩).1 ⟨3, 0, "b", 7, 0⟩).alarm
        = ⟨10, 0, "a", 7, 0⟩ := by
  simp [alarm_edit, alarm_edit_loop, alarm_insert, alarm_insert_list, State.init]

/-- C4 (fails on the code): with alarm 5 (deadline 1100) pending and `current_alarm`
equal to 5, inserting alarm 7 with the earlier deadline 1050 signals nothing, and
inserting alarm 3 with the later deadline 1200 signals `alarm_cond`: the test compares
ids, not deadlines. -/
theorem C4_wake_compares_ids :
    (alarm_insert State.init ⟨100, 1100, "a", 5, 0⟩).1.alarm_list = [⟨100, 1100, "a", 5, 0⟩]
    ∧ (alarm_insert State.init ⟨100, 1100, "a", 5, 0⟩).1.current_alarm = 5
    ∧ (alarm_insert (alarm_insert State.init ⟨100, 1100, "a", 5, 0⟩).1
        ⟨50, 1050, "b", 7, 0⟩).2 = []
    ∧ (alarm_insert (alarm_insert State.init ⟨100, 1100, "a", 5, 0⟩).1
        ⟨200, 1200, "c", 3, 0⟩).2 = [Event.signal Cond.alarm_cond] := by
  simp [alarm_insert, alarm_insert_list, State.init]

theorem teardown_counts (s : State) (L : Locals) (now : Int) :
    (teardown s L now).1.thread1count = s.thread1count
      ∧ (teardown s L now).1.thread2count = s.thread2count
      ∧ (teardown s L now).1.thread3count = s.thread3count
      ∧ (teardown s L now).1.alarm_list = s.alarm_list
      ∧ (teardown s L now).1.curr_alarm = s.curr_alarm := by
  simp only [teardown]
  split_ifs <;> simp

theorem create_display_alarm (s : State) (L : Locals) (alarm : alarm_t) (handle : Nat)
    (now : Int) :
    (create_display s L alarm handle now).2.2.1.seconds = alarm.seconds
      ∧ (create_display s L alarm handle now).2.2.1.time = alarm.time
      ∧ (create_display s L alarm handle now).2.2.1.message = alarm.message
      ∧ (create_display s L alarm handle now).2.2.1.id = alarm.id
      ∧ (create_display s L alarm handle now).1.alarm_list = s.alarm_list := by
  simp only [create_display]
  split_ifs <;> simp

theorem assign_existing_created (s : State) (L : Locals) (alarm : alarm_t) (now : Int) :
    assign_existing s L alarm 1 now = (alarm, []) := by
  simp [assign_existing]

theorem alarm_thread_iteration_cons (s : State) (L : Locals) (handle : Nat) (now : Int)
    (alarm : alarm_t) (link : List alarm_t) (hs : s.alarm_list = alarm :: link) :
    ∃ r, alarm_thread_iteration s L handle now = some r
      ∧ r.1.alarm_list = link
      ∧ Event.signal Cond.display_1 ∈ r.2.2
      ∧ ∃ a, r.1.curr_alarm = some a ∧ a.seconds = alarm.seconds ∧ a.time = alarm.time
          ∧ a.message = alarm.message ∧ a.id = alarm.id := by
  simp only [alarm_thread_iteration, alarm_thread_dispatch, hs, assign_existing_created]
  refine ⟨_, rfl, ?_, ?_, _, rfl, ?_⟩
  · simp only [teardown_counts, create_display_alarm, count_display]
    split_ifs <;> rfl
  · simp
  · exact ⟨(create_display_alarm _ _ _ _ _).1, (create_display_alarm _ _ _ _ _).2.1,
      (create_display_alarm _ _ _ _ _).2.2.1, (create_display_alarm _ _ _ _ _).2.2.2.1⟩

theorem display_loop_reading (fuel : Nat) (alarm : alarm_t) (clk : Nat → Int) (i : Nat)
    (r : List Event × Nat) (h : display_loop fuel alarm clk i = some r) :
    i + 2 ≤ r.2 ∧ alarm.time ≤ clk (r.2 - 1) := by
  induction fuel generalizing i r with
  | zero => simp [display_loop] at h
  | succ n ih =>
    simp only [display_loop] at h
    split_ifs at h with hc
    · cases hrec : display_loop n alarm clk (i + 2) with
      | none => simp [hrec] at h
      | some q =>
        simp only [hrec, Option.some.injEq] at h
        have hq := ih (i + 2) q hrec
        subst h
        exact ⟨by simp only; omega, hq.2⟩
    · simp only [Option.some.injEq] at h
      subst h
      exact ⟨le_refl _, by simpa using hc⟩

/-- C5 (the claim as stated fails): at time 1000 the alarm thread takes alarm 1, whose
deadline is 1100, off the list and hands it to a newly created display thread. -/
theorem C5_dispatched_before_deadline :
    alarm_thread_iteration { State.init with alarm_list := [⟨100, 1100, "a", 1, 0⟩] }
        ⟨0, 0, 0⟩ 7 1000
      = some ({ State.init with
                  thread1 := 1, thread1count := 1, display_thread_count := 1,
                  curr_alarm := some ⟨100, 1100, "a", 1, 7⟩ },
              ⟨6, 2 ^ 64 - 1, 2 ^ 64 - 1⟩,
              [Event.pthread_create 1, Event.created 7 1 1000 100 "a",
               Event.signal Cond.display_1, Event.signal Cond.display_1])
    ∧ (1000 : Int) < (⟨100, 1100, "a", 1, 7⟩ : alarm_t).time := by
  constructor
  · simp [alarm_thread_iteration, alarm_thread_dispatch, count_display, create_display,
      assign_existing, teardown, State.init, decr, toInt]
  · decide

/-- C5 (amended): an iteration of `alarm_thread` that finds the list non-empty takes
the head off the list and hands it to the display threads (`curr_alarm`, signal on
`display_1`) with seconds, deadline, message and id unchanged, whatever the current
time `now`; the deadline is awaited by `display_thread`, whose pass ends its progress
loop, and so prints the expiry line, only after a call of `time (NULL)` returned a
value at or past the deadline. -/
theorem C5_dispatch_ignores_deadline (s : State) (L : Locals) (handle : Nat) (now : Int)
    (alarm : alarm_t) (link : List alarm_t) (hs : s.alarm_list = alarm :: link) :
    ∃ r a, alarm_thread_iteration s L handle now = some r
      ∧ r.1.alarm_list = link
      ∧ r.1.curr_alarm = some a
      ∧ a.seconds = alarm.seconds ∧ a.time = alarm.time
      ∧ a.message = alarm.message ∧ a.id = alarm.id
      ∧ Event.signal Cond.display_1 ∈ r.2.2
      ∧ ∀ fuel st clk out, display_thread fuel st a clk = some out →
          ∃ n, a.time ≤ clk n
            ∧ Event.expired a.thread (clk (n + 1)) a.seconds a.message ∈ out.2 := by
  obtain ⟨r, hr, hl, hsig, a, ha, h1, h2, h3, h4⟩ :=
    alarm_thread_iteration_cons s L handle now alarm link hs
  refine ⟨r, a, hr, hl, ha, h1, h2, h3, h4, hsig, ?_⟩
  intro fuel st clk out hout
  simp only [display_thread] at hout
  cases hloop : display_loop fuel a clk 1 with
  | none => simp [hloop] at hout
  | some q =>
    simp only [hloop, Option.some.injEq] at hout
    have hq := display_loop_reading fuel a clk 1 q hloop
    refine ⟨q.2 - 1, hq.2, ?_⟩
    have hidx : q.2 - 1 + 1 = q.2 := by omega
    rw [hidx, ← hout]
    simp

/-- Witness of C5 (amended): alarm 1 with deadline 1100, dispatched at time 1000. -/
theorem C5_dispatch_ignores_deadline_witness :
    ∃ r a, alarm_thread_iteration
        { State.init with alarm_list := [⟨100, 1100, "a", 1, 0⟩, ⟨5, 1005, "b", 2, 0⟩] }
        ⟨0, 0, 0⟩ 7 1000 = some r
      ∧ r.1.alarm_list = [⟨5, 1005, "b", 2, 0⟩]
      ∧ r.1.curr_alarm = some a
      ∧ a.time = 1100 := by
  obtain ⟨r, a, h1, h2, h3, _, h5, _⟩ :=
    C5_dispatch_ignores_deadline
      { State.init with alarm_list := [⟨100, 1100, "a", 1, 0⟩, ⟨5, 1005, "b", 2, 0⟩] }
      ⟨0, 0, 0⟩ 7 1000 ⟨100, 1100, "a", 1, 0⟩ [⟨5, 1005, "b", 2, 0⟩] rfl
  exact ⟨r, a, h1, h2, h3, h5⟩

/-- C6 (fails on the code): four alarms are inserted and three iterations of
`alarm_thread` create the three display threads (flags 1, 1, 1, counts 1, 1, 1,
`display_thread_count` 3). The fourth iteration takes alarm 4 off the list but emits no
assignment, leaves `alarm->thread` as it was (0, not the handle of display thread 1)
and every count as it was: `created = 1` is executed on every iteration, so the
least-loaded choice of lines 291-307 is never reached. -/
theorem C6_least_loaded_choice_not_reached :
    run (State.init, ⟨5, 5, 5⟩)
        [Op.insert ⟨10, 1010, "a", 1, 0⟩, Op.insert ⟨20, 1020, "b", 2, 0⟩,
         Op.insert ⟨30, 1030, "c", 3, 0⟩, Op.insert ⟨40, 1040, "d", 4, 0⟩,
         Op.dispatch 10 1000, Op.dispatch 20 1000, Op.dispatch 30 1000]
      = ({ alarm_list := [⟨40, 1040, "d", 4, 0⟩], current_alarm := 0,
           thread1count := 1, thread2count := 1, thread3count := 1,
           thread1 := 1, thread2 := 1, thread3 := 1,
           display_thread_count := 3, curr_alarm := some ⟨30, 1030, "c", 3, 30⟩ },
         ⟨7, 18, 29⟩)
    ∧ alarm_thread_iteration
        { alarm_list := [⟨40, 1040, "d", 4, 0⟩], current_alarm := 0,
          thread1count := 1, thread2count := 1, thread3count := 1,
          thread1 := 1, thread2 := 1, thread3 := 1,
          display_thread_count := 3, curr_alarm := some ⟨30, 1030, "c", 3, 30⟩ }
        ⟨7, 18, 29⟩ 40 1000
      = some ({ alarm_list := [], current_alarm := 0,
                thread1count := 1, thread2count := 1, thread3count := 1,
                thread1 := 1, thread2 := 1, thread3 := 1,
                display_thread_count := 3, curr_alarm := some ⟨40, 1040, "d", 4, 0⟩ },
              ⟨6, 17, 28⟩,
              [Event.signal Cond.display_1, Event.signal Cond.display_1]) := by
  constructor
  · simp [run, step, alarm_insert, alarm_insert_list, alarm_thread_iteration,
      alarm_thread_dispatch, count_display, create_display, assign_existing, teardown,
      State.init, decr, toInt]
  · simp [alarm_thread_iteration, alarm_thread_dispatch, count_display, create_display,
      assign_existing, teardown, decr]

theorem teardown_state_of_no_cancel (s : State) (L : Locals) (now : Int)
    (h : ∀ k, Event.pthread_cancel k ∉ (teardown s L now).2.2) :
    (teardown s L now).1 = s := by
  have e1 : decr L.display1thread ≠ 0 := by
    intro e
    apply h 1
    simp [teardown, e]
  have e2 : decr L.display2thread ≠ 0 := by
    intro e
    apply h 2
    simp [teardown, e]
  have e3 : decr L.display3thread ≠ 0 := by
    intro e
    apply h 3
    simp [teardown, e]
  simp [teardown, e1, e2, e3]

theorem alarm_thread_iteration_of_cons (s : State) (L : Locals) (handle : Nat) (now : Int)
    (alarm : alarm_t) (link : List alarm_t) (hs : s.alarm_list = alarm :: link) :
    alarm_thread_iteration s L handle now
      = some (alarm_thread_dispatch { s with current_alarm := 0 } alarm link L handle now) := by
  simp only [alarm_thread_iteration, hs]

theorem dispatch_alarm_list (s : State) (alarm : alarm_t) (link : List alarm_t) (L : Locals)
    (handle : Nat) (now : Int) :
    (alarm_thread_dispatch s alarm link L handle now).1.alarm_list = link := by
  simp only [alarm_thread_dispatch, teardown_counts, create_display_alarm, count_display]
  split_ifs <;> rfl

theorem dispatch_counts (s : State) (alarm : alarm_t) (link : List alarm_t) (L : Locals)
    (handle : Nat) (now : Int) :
    (alarm_thread_dispatch s alarm link L handle now).1.thread1count
        = (create_display (count_display { s with alarm_list := link }) L alarm handle
            now).1.thread1count
      ∧ (alarm_thread_dispatch s alarm link L handle now).1.thread2count
        = (create_display (count_display { s with alarm_list := link }) L alarm handle
            now).1.thread2count
      ∧ (alarm_thread_dispatch s alarm link L handle now).1.thread3count
        = (create_display (count_display { s with alarm_list := link }) L alarm handle
            now).1.thread3count
      ∧ (alarm_thread_dispatch s alarm link L handle now).1.curr_alarm
        = some (create_display (count_display { s with alarm_list := link }) L alarm handle
            now).2.2.1 := by
  simp [alarm_thread_dispatch, teardown_counts, assign_existing_created]

theorem dispatch_state_of_no_cancel (s : State) (alarm : alarm_t) (link : List alarm_t)
    (L : Locals) (handle : Nat) (now : Int)
    (hno : ∀ k, Event.pthread_cancel k ∉ (alarm_thread_dispatch s alarm link L handle now).2.2) :
    (alarm_thread_dispatch s alarm link L handle now).1
      = { (create_display (count_display { s with alarm_list := link }) L alarm handle now).1
          with curr_alarm :=
            some (create_display (count_display { s with alarm_list := link }) L alarm handle
              now).2.2.1 } := by
  simp only [alarm_thread_dispatch, assign_existing_created] at hno ⊢
  generalize create_display (count_display { s with alarm_list := link }) L alarm handle now
    = c at hno ⊢
  have ht := teardown_state_of_no_cancel c.1 c.2.1 now (fun k hk => hno k (by simp [hk]))
  rw [ht]

theorem pool_count_display (s : State) : pool (count_display s) = pool s := by
  simp only [count_display]
  split_ifs <;> rfl

theorem pool_dispatch_of_no_cancel (s : State) (alarm : alarm_t) (link : List alarm_t)
    (L : Locals) (handle : Nat) (now : Int)
    (hno : ∀ k, Event.pthread_cancel k ∉ (alarm_thread_dispatch s alarm link L handle now).2.2) :
    pool (alarm_thread_dispatch s alarm link L handle now).1
      = pool (create_display (count_display { s with alarm_list := link }) L alarm handle
          now).1 := by
  rw [dispatch_state_of_no_cancel s alarm link L handle now hno]
  rfl

theorem pool_dispatch_counts (s : State) (alarm : alarm_t) (link : List alarm_t)
    (L : Locals) (handle : Nat) (now : Int) :
    (pool (alarm_thread_dispatch s alarm link L handle now).1).2
      = (pool (create_display (count_display { s with alarm_list := link }) L alarm handle
          now).1).2 := by
  have h := dispatch_counts s alarm link L handle now
  simp only [pool, h.1, h.2.1, h.2.2.1]

theorem create_display_slot1 (s : State) (L : Locals) (alarm : alarm_t) (handle : Nat)
    (now : Int) (t2 t3 c1 c2 c3 : Int) (hp : pool s = ((0, t2, t3), (c1, c2, c3))) :
    pool (create_display s L alarm handle now).1 = ((1, t2, t3), (c1 + 1, c2, c3))
      ∧ (create_display s L alarm handle now).2.2.1 = { alarm with thread := toInt handle }
      ∧ Event.pthread_create 1 ∈ (create_display s L alarm handle now).2.2.2 := by
  simp only [pool, Prod.mk.injEq] at hp
  obtain ⟨⟨h1, h2, h3⟩, h4, h5, h6⟩ := hp
  simp [create_display, pool, h1, h2, h3, h4, h5, h6]

theorem create_display_slot2 (s : State) (L : Locals) (alarm : alarm_t) (handle : Nat)
    (now : Int) (t3 c1 c2 c3 : Int) (hp : pool s = ((1, 0, t3), (c1, c2, c3))) :
    pool (create_display s L alarm handle now).1 = ((1, 1, t3), (c1, c2 + 1, c3))
      ∧ (create_display s L alarm handle now).2.2.1 = { alarm with thread := toInt handle }
      ∧ Event.pthread_create 2 ∈ (create_display s L alarm handle now).2.2.2 := by
  simp only [pool, Prod.mk.injEq] at hp
  obtain ⟨⟨h1, h2, h3⟩, h4, h5, h6⟩ := hp
  simp [create_display, pool, h1, h2, h3, h4, h5, h6]

theorem create_display_slot3 (s : State) (L : Locals) (alarm : alarm_t) (handle : Nat)
    (now : Int) (c1 c2 c3 : Int) (hp : pool s = ((1, 1, 0), (c1, c2, c3))) :
    pool (create_display s L alarm handle now).1 = ((1, 1, 1), (c1, c2, c3 + 1))
      ∧ (create_display s L alarm handle now).2.2.1 = { alarm with thread := toInt handle }
      ∧ Event.pthread_create 3 ∈ (create_display s L alarm handle now).2.2.2 := by
  simp only [pool, Prod.mk.injEq] at hp
  obtain ⟨⟨h1, h2, h3⟩, h4, h5, h6⟩ := hp
  simp [create_display, pool, h1, h2, h3, h4, h5, h6]

theorem dispatch_events (s : State) (alarm : alarm_t) (link : List alarm_t)
    (L : Locals) (handle : Nat) (now : Int) (e : Event)
    (he : e ∈ (create_display (count_display { s with alarm_list := link }) L alarm handle
          now).2.2.2) :
    e ∈ (alarm_thread_dispatch s alarm link L handle now).2.2 := by
  simp only [alarm_thread_dispatch, assign_existing_created]
  simp [he]

theorem iteration_facts (s : State) (L : Locals) (handle : Nat) (now : Int)
    (alarm : alarm_t) (link : List alarm_t) (hs : s.alarm_list = alarm :: link) :
    ∃ r, alarm_thread_iteration s L handle now = some r
      ∧ r.1.alarm_list = link
      ∧ (∀ t2 t3 c1 c2 c3, pool s = ((0, t2, t3), (c1, c2, c3)) →
          Event.pthread_create 1 ∈ r.2.2
          ∧ r.1.curr_alarm = some { alarm with thread := toInt handle }
          ∧ (pool r.1).2 = (c1 + 1, c2, c3)
          ∧ ((∀ k, Event.pthread_cancel k ∉ r.2.2) →
              pool r.1 = ((1, t2, t3), (c1 + 1, c2, c3))))
      ∧ (∀ t3 c1 c2 c3, pool s = ((1, 0, t3), (c1, c2, c3)) →
          Event.pthread_create 2 ∈ r.2.2
          ∧ r.1.curr_alarm = some { alarm with thread := toInt handle }
          ∧ (pool r.1).2 = (c1, c2 + 1, c3)
          ∧ ((∀ k, Event.pthread_cancel k ∉ r.2.2) →
              pool r.1 = ((1, 1, t3), (c1, c2 + 1, c3))))
      ∧ (∀ c1 c2 c3, pool s = ((1, 1, 0), (c1, c2, c3)) →
          Event.pthread_create 3 ∈ r.2.2
          ∧ r.1.curr_alarm = some { alarm with thread := toInt handle }
          ∧ (pool r.1).2 = (c1, c2, c3 + 1)
          ∧ ((∀ k, Event.pthread_cancel k ∉ r.2.2) →
              pool r.1 = ((1, 1, 1), (c1, c2, c3 + 1)))) := by
  have hp : pool (count_display { ({ s with current_alarm := 0 } : State) with
      alarm_list := link }) = pool s := by
    rw [pool_count_display]
    rfl
  refine ⟨_, alarm_thread_iteration_of_cons s L handle now alarm link hs,
    dispatch_alarm_list _ _ _ _ _ _, ?_, ?_, ?_⟩
  · intro t2 t3 c1 c2 c3 hpool
    have c := create_display_slot1 _ L alarm handle now _ _ _ _ _ (hp.trans hpool)
    refine ⟨dispatch_events _ _ _ _ _ _ _ c.2.2, ?_, ?_, ?_⟩
    · rw [(dispatch_counts _ _ _ _ _ _).2.2.2, c.2.1]
    · exact (pool_dispatch_counts _ _ _ _ _ _).trans (congrArg Prod.snd c.1)
    · intro hno
      exact (pool_dispatch_of_no_cancel _ _ _ _ _ _ hno).trans c.1
  · intro t3 c1 c2 c3 hpool
    have c := create_display_slot2 _ L alarm handle now _ _ _ _ (hp.trans hpool)
    refine ⟨dispatch_events _ _ _ _ _ _ _ c.2.2, ?_, ?_, ?_⟩
    · rw [(dispatch_counts _ _ _ _ _ _).2.2.2, c.2.1]
    · exact (pool_dispatch_counts _ _ _ _ _ _).trans (congrArg Prod.snd c.1)
    · intro hno
      exact (pool_dispatch_of_no_cancel _ _ _ _ _ _ hno).trans c.1
  · intro c1 c2 c3 hpool
    have c := create_display_slot3 _ L alarm handle now _ _ _ (hp.trans hpool)
    refine ⟨dispatch_events _ _ _ _ _ _ _ c.2.2, ?_, ?_, ?_⟩
    · rw [(dispatch_counts _ _ _ _ _ _).2.2.2, c.2.1]
    · exact (pool_dispatch_counts _ _ _ _ _ _).trans (congrArg Prod.snd c.1)
    · intro hno
      exact (pool_dispatch_of_no_cancel _ _ _ _ _ _ hno).trans c.1

/-- C7: from a state with the initial pool (flags `thread1..3` and counts all 0) and
three alarms pending, three consecutive iterations of `alarm_thread` all run; if no
display thread is torn down (no `pthread_cancel`) in the first two, they create the
display threads of slots 1, 2 and 3 in this order, one per alarm, each alarm's `thread`
field receives the handle of its own new thread, and every count ends at 1. -/
theorem C7_three_alarms_three_workers (s : State) (L : Locals) (h1 h2 h3 : Nat)
    (n1 n2 n3 : Int) (a1 a2 a3 : alarm_t) (rest : List alarm_t)
    (hpool : pool s = ((0, 0, 0), (0, 0, 0)))
    (hlist : s.alarm_list = a1 :: a2 :: a3 :: rest) :
    ∃ r1 r2 r3,
      alarm_thread_iteration s L h1 n1 = some r1
      ∧ alarm_thread_iteration r1.1 r1.2.1 h2 n2 = some r2
      ∧ alarm_thread_iteration r2.1 r2.2.1 h3 n3 = some r3
      ∧ ((∀ k, Event.pthread_cancel k ∉ r1.2.2) → (∀ k, Event.pthread_cancel k ∉ r2.2.2) →
          (Event.pthread_create 1 ∈ r1.2.2 ∧ r1.1.curr_alarm = some { a1 with thread := toInt h1 })
          ∧ (Event.pthread_create 2 ∈ r2.2.2
              ∧ r2.1.curr_alarm = some { a2 with thread := toInt h2 })
          ∧ (Event.pthread_create 3 ∈ r3.2.2
              ∧ r3.1.curr_alarm = some { a3 with thread := toInt h3 })
          ∧ r3.1.thread1count = 1 ∧ r3.1.thread2count = 1 ∧ r3.1.thread3count = 1
          ∧ r3.1.alarm_list = rest) := by
  obtain ⟨r1, e1, l1, f1, -, -⟩ := iteration_facts s L h1 n1 a1 (a2 :: a3 :: rest) hlist
  obtain ⟨r2, e2, l2, -, f2, -⟩ := iteration_facts r1.1 r1.2.1 h2 n2 a2 (a3 :: rest) l1
  obtain ⟨r3, e3, l3, -, -, f3⟩ := iteration_facts r2.1 r2.2.1 h3 n3 a3 rest l2
  refine ⟨r1, r2, r3, e1, e2, e3, ?_⟩
  intro hno1 hno2
  obtain ⟨ev1, cur1, -, p1⟩ := f1 _ _ _ _ _ hpool
  obtain ⟨ev2, cur2, -, p2⟩ := f2 _ _ _ _ (p1 hno1)
  obtain ⟨ev3, cur3, p3, -⟩ := f3 _ _ _ (p2 hno2)
  simp only [pool, Prod.mk.injEq] at p3
  refine ⟨⟨ev1, cur1⟩, ⟨ev2, cur2⟩, ⟨ev3, cur3⟩, ?_, ?_, ?_, l3⟩
  · simpa using p3.1
  · simpa using p3.2.1
  · simpa using p3.2.2

/-- Witness of C7: three alarms pending in the initial state, handles 10, 20 and 30. -/
theorem C7_three_alarms_three_workers_witness :
    ∃ r1 r2 r3,
      alarm_thread_iteration
          { State.init with alarm_list :=
              [⟨10, 1010, "a", 1, 0⟩, ⟨20, 1020, "b", 2, 0⟩, ⟨30, 1030, "c", 3, 0⟩] }
          ⟨5, 5, 5⟩ 10 1000 = some r1
      ∧ alarm_thread_iteration r1.1 r1.2.1 20 1000 = some r2
      ∧ alarm_thread_iteration r2.1 r2.2.1 30 1000 = some r3
      ∧ (∀ k, Event.pthread_cancel k ∉ r1.2.2) ∧ (∀ k, Event.pthread_cancel k ∉ r2.2.2)
      ∧ Event.pthread_create 1 ∈ r1.2.2 ∧ Event.pthread_create 2 ∈ r2.2.2
      ∧ Event.pthread_create 3 ∈ r3.2.2
      ∧ r3.1.thread1count = 1 ∧ r3.1.thread2count = 1 ∧ r3.1.thread3count = 1 := by
  obtain ⟨r1, r2, r3, e1, e2, e3, h⟩ :=
    C7_three_alarms_three_workers
      { State.init with alarm_list :=
          [⟨10, 1010, "a", 1, 0⟩, ⟨20, 1020, "b", 2, 0⟩, ⟨30, 1030, "c", 3, 0⟩] }
      ⟨5, 5, 5⟩ 10 20 30 1000 1000 1000
      ⟨10, 1010, "a", 1, 0⟩ ⟨20, 1020, "b", 2, 0⟩ ⟨30, 1030, "c", 3, 0⟩ [] rfl rfl
  have v1 := e1
  simp [alarm_thread_iteration, alarm_thread_dispatch, count_display, create_display,
    assign_existing, teardown, State.init, decr, toInt] at v1
  subst v1
  have v2 := e2
  simp [alarm_thread_iteration, alarm_thread_dispatch, count_display, create_display,
    assign_existing, teardown, State.init, decr, toInt] at v2
  subst v2
  have hno1 : ∀ k, Event.pthread_cancel k ∉
      ([Event.pthread_create 1, Event.created 10 1 1000 10 "a", Event.signal Cond.display_1,
        Event.signal Cond.display_1] : List Event) := by
    intro k
    simp
  have hno2 : ∀ k, Event.pthread_cancel k ∉
      ([Event.pthread_create 2, Event.created 20 2 1000 20 "b", Event.signal Cond.display_1,
        Event.signal Cond.display_1] : List Event) := by
    intro k
    simp
  obtain ⟨c1, c2, c3, k1, k2, k3, -⟩ := h hno1 hno2
  exact ⟨_, _, _, e1, e2, e3, hno1, hno2, c1.1, c2.1, c3.1, k1, k2, k3⟩

theorem stamped_insert_mem (l : List (Nat × alarm_t)) (e p : Nat × alarm_t) :
    p ∈ stamped_insert l e ↔ p = e ∨ p ∈ l := by
  induction l with
  | nil => simp [stamped_insert]
  | cons next rest ih =>
    simp only [stamped_insert]
    split_ifs
    · simp
    · simp only [List.mem_cons, ih]
      tauto

theorem stamped_insert_erase (l : List (Nat × alarm_t)) (e : Nat × alarm_t) :
    (stamped_insert l e).map Prod.snd = alarm_insert_list (l.map Prod.snd) e.2 := by
  induction l with
  | nil => rfl
  | cons next rest ih =>
    simp only [stamped_insert, List.map_cons, alarm_insert_list]
    split_ifs
    · rfl
    · simp [ih]

theorem stamped_insert_pairwise (l : List (Nat × alarm_t)) (e : Nat × alarm_t)
    (hl : l.Pairwise newest_first) (hnew : ∀ p ∈ l, p.1 < e.1) :
    (stamped_insert l e).Pairwise newest_first := by
  induction l with
  | nil => simp [stamped_insert]
  | cons next rest ih =>
    rw [List.pairwise_cons] at hl
    simp only [stamped_insert]
    split_ifs with hc
    · refine List.pairwise_cons.2 ⟨?_, List.pairwise_cons.2 hl⟩
      intro p hp
      have hid : next.2.id ≤ p.2.id := by
        rcases List.mem_cons.1 hp with rfl | hr
        · exact le_refl _
        · rcases hl.1 p hr with h | h
          · exact le_of_lt h
          · exact le_of_eq h.1
      have hle : e.2.id ≤ p.2.id := le_trans hc hid
      rcases lt_or_eq_of_le hle with h | h
      · exact Or.inl h
      · exact Or.inr ⟨h, hnew p hp⟩
    · refine List.pairwise_cons.2 ⟨?_, ih hl.2 (fun p hp => hnew p (List.mem_cons_of_mem _ hp))⟩
      intro p hp
      rcases (stamped_insert_mem rest e p).1 hp with rfl | hr
      · exact Or.inl (lt_of_not_ge hc)
      · exact hl.1 p hr

theorem step_alarm_list (c : State × Locals) (op : Op) (n : Nat) (l : List (Nat × alarm_t))
    (h : c.1.alarm_list = l.map Prod.snd) :
    (step c op).1.alarm_list = (stamped_step n l op).map Prod.snd := by
  cases op with
  | insert alarm =>
    simp only [step, stamped_step, alarm_insert_alarm_list, stamped_insert_erase, h]
  | dispatch handle now =>
    cases l with
    | nil =>
      have h0 : c.1.alarm_list = [] := by simpa using h
      simp [step, stamped_step, alarm_thread_iteration, h0]
    | cons e rest =>
      have h1 : c.1.alarm_list = e.2 :: rest.map Prod.snd := by simpa using h
      simp only [step, stamped_step, alarm_thread_iteration_of_cons c.1 c.2 handle now _ _ h1,
        dispatch_alarm_list, List.tail_cons]

theorem run_alarm_list (ops : List Op) (c : State × Locals) (n : Nat)
    (l : List (Nat × alarm_t)) (h : c.1.alarm_list = l.map Prod.snd) :
    (run c ops).1.alarm_list = (stamped_run n l ops).map Prod.snd := by
  induction ops generalizing c n l with
  | nil => simpa [run, stamped_run] using h
  | cons op ops ih =>
    simp only [run, List.foldl_cons, stamped_run]
    exact ih (step c op) (n + 1) (stamped_step n l op) (step_alarm_list c op n l h)

theorem stamped_step_invariant (n : Nat) (l : List (Nat × alarm_t)) (op : Op)
    (hl : l.Pairwise newest_first) (hb : ∀ p ∈ l, p.1 < n) :
    (stamped_step n l op).Pairwise newest_first ∧ ∀ p ∈ stamped_step n l op, p.1 < n + 1 := by
  cases op with
  | insert alarm =>
    refine ⟨stamped_insert_pairwise l (n, alarm) hl hb, ?_⟩
    intro p hp
    rcases (stamped_insert_mem l (n, alarm) p).1 hp with rfl | hr
    · exact Nat.lt_succ_self _
    · exact Nat.lt_succ_of_lt (hb p hr)
  | dispatch handle now =>
    refine ⟨hl.sublist (List.tail_sublist l), ?_⟩
    intro p hp
    exact Nat.lt_succ_of_lt (hb p (List.mem_of_mem_tail hp))

theorem stamped_run_pairwise (ops : List Op) (n : Nat) (l : List (Nat × alarm_t))
    (hl : l.Pairwise newest_first) (hb : ∀ p ∈ l, p.1 < n) :
    (stamped_run n l ops).Pairwise newest_first := by
  induction ops generalizing n l with
  | nil => simpa [stamped_run] using hl
  | cons op ops ih =>
    simp only [stamped_run]
    exact ih (n + 1) _ (stamped_step_invariant n l op hl hb).1
      (stamped_step_invariant n l op hl hb).2

theorem stamped_run_origin (ops : List Op) (n : Nat) (l : List (Nat × alarm_t))
    (p : Nat × alarm_t) (hp : p ∈ stamped_run n l ops) :
    p ∈ l ∨ (n ≤ p.1 ∧ ops[p.1 - n]? = some (Op.insert p.2)) := by
  induction ops generalizing n l with
  | nil => exact Or.inl (by simpa [stamped_run] using hp)
  | cons op ops ih =>
    simp only [stamped_run] at hp
    rcases ih (n + 1) _ hp with h | ⟨h1, h2⟩
    · cases op with
      | insert alarm =>
        rcases (stamped_insert_mem l (n, alarm) p).1 h with rfl | hr
        · exact Or.inr ⟨le_refl _, by simp⟩
        · exact Or.inl hr
      | dispatch handle now => exact Or.inl (List.mem_of_mem_tail h)
    · refine Or.inr ⟨by omega, ?_⟩
      have hidx : p.1 - n = (p.1 - (n + 1)) + 1 := by omega
      rw [hidx, List.getElem?_cons_succ]
      exact h2

theorem edit_loop_finds_newest (l : List (Nat × alarm_t)) (request : alarm_t)
    (hl : l.Pairwise newest_first) (hX : ∃ e ∈ l, e.2.id = request.id) :
    ∃ e ∈ l, (alarm_edit_loop (l.map Prod.snd) request).1 = some e.2
      ∧ (alarm_edit_loop (l.map Prod.snd) request).2.2
          = { request with message := e.2.message, seconds := e.2.seconds }
      ∧ e.2.id = request.id
      ∧ ∀ p ∈ l, p.2.id = request.id → p = e ∨ p.1 < e.1 := by
  induction l with
  | nil =>
    obtain ⟨e, he, -⟩ := hX
    cases he
  | cons next rest ih =>
    rw [List.pairwise_cons] at hl
    by_cases hc : next.2.id = request.id
    · refine ⟨next, List.mem_cons_self _ _, ?_, ?_, hc, ?_⟩
      · simp [alarm_edit_loop, hc]
      · simp [alarm_edit_loop, hc]
      · intro p hp hpid
        rcases List.mem_cons.1 hp with rfl | hr
        · exact Or.inl rfl
        · rcases hl.1 p hr with h | h
          · rw [hc, hpid] at h
            exact absurd h (lt_irrefl _)
          · exact Or.inr h.2
    · have hX2 : ∃ e ∈ rest, e.2.id = request.id := by
        obtain ⟨e, he, hid⟩ := hX
        rcases List.mem_cons.1 he with rfl | hr
        · exact absurd hid hc
        · exact ⟨e, hr, hid⟩
      obtain ⟨e, he, h1, h2, h3, h4⟩ := ih hl.2 hX2
      refine ⟨e, List.mem_cons_of_mem _ he, ?_, ?_, h3, ?_⟩
      · simp [alarm_edit_loop, hc, h1]
      · simp [alarm_edit_loop, hc, h2]
      · intro p hp hpid
        rcases List.mem_cons.1 hp with rfl | hr
        · exact absurd hpid hc
        · exact h4 p hr hpid

theorem alarm_edit_alarm (s : State) (request : alarm_t) :
    (alarm_edit s request).alarm = (alarm_edit_loop s.alarm_list request).2.2 := by
  simp only [alarm_edit]
  split <;> rfl

/-- C8: for every history `ops` of `alarm_insert` calls and head removals by the alarm
thread, starting from the initial state, and every request whose id is carried by at
least one pending entry: the pending list is the list of stamped entries without the
stamps, every stamp is the position in `ops` of the `alarm_insert` call that added
the entry, and the entry `alarm_edit` matches (the one whose message and seconds it
copies) carries the request's id and the largest stamp among the pending entries with
that id, i.e. it is the one inserted most recently. -/
theorem C8_edit_matches_most_recent (L : Locals) (ops : List Op) (request : alarm_t)
    (hX : ∃ e ∈ (run (State.init, L) ops).1.alarm_list, e.id = request.id) :
    (stamped_run 0 [] ops).map Prod.snd = (run (State.init, L) ops).1.alarm_list
    ∧ (∀ p ∈ stamped_run 0 [] ops, ops[p.1]? = some (Op.insert p.2))
    ∧ ∃ n next,
        (alarm_edit_loop (run (State.init, L) ops).1.alarm_list request).1 = some next
        ∧ (alarm_edit (run (State.init, L) ops).1 request).alarm
            = { request with message := next.message, seconds := next.seconds }
        ∧ next.id = request.id
        ∧ (n, next) ∈ stamped_run 0 [] ops
        ∧ ∀ p ∈ stamped_run 0 [] ops, p.2.id = request.id → p = (n, next) ∨ p.1 < n := by
  have herase := run_alarm_list ops (State.init, L) 0 [] rfl
  have hpw := stamped_run_pairwise ops 0 [] List.Pairwise.nil (fun p hp => by cases hp)
  refine ⟨herase.symm, ?_, ?_⟩
  · intro p hp
    rcases stamped_run_origin ops 0 [] p hp with h | ⟨-, h⟩
    · cases h
    · simpa using h
  · have hX2 : ∃ e ∈ stamped_run 0 [] ops, e.2.id = request.id := by
      obtain ⟨e, he, hid⟩ := hX
      rw [herase] at he
      obtain ⟨q, hq, rfl⟩ := List.mem_map.1 he
      exact ⟨q, hq, hid⟩
    obtain ⟨e, he, h1, h2, h3, h4⟩ := edit_loop_finds_newest _ request hpw hX2
    refine ⟨e.1, e.2, ?_, ?_, h3, he, h4⟩
    · rw [herase]
      exact h1
    · rw [alarm_edit_alarm, herase]
      exact h2

/-- Witness of C8: alarms "a" and "b" inserted with id 7 (positions 0 and 1), alarm "c"
with id 3 inserted and then dispatched; `Change_Alarm(7)` matches "b". -/
theorem C8_edit_matches_most_recent_witness :
    ∃ n next,
      (alarm_edit_loop (run (State.init, ⟨5, 5, 5⟩)
          [Op.insert ⟨10, 1010, "a", 7, 0⟩, Op.insert ⟨20, 1020, "b", 7, 0⟩,
           Op.insert ⟨5, 1005, "c", 3, 0⟩, Op.dispatch 9 1000]).1.alarm_list
        ⟨3, 0, "z", 7, 0⟩).1 = some next
      ∧ next.id = 7
      ∧ (n, next) ∈ stamped_run 0 []
          [Op.insert ⟨10, 1010, "a", 7, 0⟩, Op.insert ⟨20, 1020, "b", 7, 0⟩,
           Op.insert ⟨5, 1005, "c", 3, 0⟩, Op.dispatch 9 1000] := by
  obtain ⟨-, -, n, next, h1, -, h3, h4, -⟩ :=
    C8_edit_matches_most_recent ⟨5, 5, 5⟩
      [Op.insert ⟨10, 1010, "a", 7, 0⟩, Op.insert ⟨20, 1020, "b", 7, 0⟩,
       Op.insert ⟨5, 1005, "c", 3, 0⟩, Op.dispatch 9 1000]
      ⟨3, 0, "z", 7, 0⟩
      ⟨⟨20, 1020, "b", 7, 0⟩, by
        simp [run, step, alarm_insert, alarm_insert_list, alarm_thread_iteration,
          alarm_thread_dispatch, count_display, create_display, assign_existing, teardown,
          State.init, decr], rfl⟩
  exact ⟨n, next, h1, h3, h4⟩

/-- C9: the alarm thread takes an alarm with id X off the list and no pending entry is
left with id X. A following `alarm_edit` for X ends in `err_abort (status, "Not found")`
and changes nothing: the globals, among them the dispatched record `curr_alarm` points
to (its seconds, message and deadline are those it had in the list), and the request. -/
theorem C9_edit_after_dispatch_not_found (s : State) (L : Locals) (handle : Nat) (now : Int)
    (alarm : alarm_t) (link : List alarm_t) (request : alarm_t)
    (hs : s.alarm_list = alarm :: link) (hid : alarm.id = request.id)
    (hno : ∀ e ∈ link, e.id ≠ request.id) :
    ∃ r a, alarm_thread_iteration s L handle now = some r
      ∧ r.1.curr_alarm = some a
      ∧ a.id = request.id ∧ a.seconds = alarm.seconds ∧ a.message = alarm.message
      ∧ a.time = alarm.time
      ∧ (alarm_edit r.1 request).status = Status.err_abort "Not found"
      ∧ (alarm_edit r.1 request).state = r.1
      ∧ (alarm_edit r.1 request).state.curr_alarm = some a
      ∧ (alarm_edit r.1 request).alarm = request := by
  obtain ⟨r, hr, hl, -, a, ha, h1, h2, h3, h4⟩ :=
    alarm_thread_iteration_cons s L handle now alarm link hs
  have hnf := alarm_edit_not_found r.1 request (by rw [hl]; exact hno)
  have hst := alarm_edit_state r.1 request
  exact ⟨r, a, hr, ha, h4.trans hid, h1, h3, h2, hnf.1, hst, by rw [hst]; exact ha, hnf.2⟩

/-- Witness of C9: alarm 7 is dispatched while alarm 8 stays pending; then
`Change_Alarm(7)` is not found. -/
theorem C9_edit_after_dispatch_not_found_witness :
    ∃ r a, alarm_thread_iteration
        { State.init with alarm_list := [⟨10, 1010, "a", 7, 0⟩, ⟨20, 1020, "b", 8, 0⟩] }
        ⟨5, 5, 5⟩ 9 1000 = some r
      ∧ r.1.curr_alarm = some a
      ∧ a.seconds = 10 ∧ a.message = "a" ∧ a.time = 1010
      ∧ (alarm_edit r.1 ⟨3, 0, "z", 7, 0⟩).status = Status.err_abort "Not found"
      ∧ (alarm_edit r.1 ⟨3, 0, "z", 7, 0⟩).state.curr_alarm = some a := by
  obtain ⟨r, a, h1, h2, -, h4, h5, h6, h7, -, h9, -⟩ :=
    C9_edit_after_dispatch_not_found
      { State.init with alarm_list := [⟨10, 1010, "a", 7, 0⟩, ⟨20, 1020, "b", 8, 0⟩] }
      ⟨5, 5, 5⟩ 9 1000 ⟨10, 1010, "a", 7, 0⟩ [⟨20, 1020, "b", 8, 0⟩] ⟨3, 0, "z", 7, 0⟩
      rfl rfl (by simp)
  exact ⟨r, a, h1, h2, h4, h5, h6, h7, h9⟩

theorem display_loop_finish (alarm : alarm_t) (clk : Nat → Int) (k : Nat) :
    ∀ (i fuel : Nat), alarm.time ≤ clk (i + 2 * k + 1) →
      (∀ j < k, alarm.time > clk (i + 2 * j + 1)) → k < fuel →
      display_loop fuel alarm clk i
        = some ((List.range (k + 1)).map
            (fun j => Event.progress alarm.id (clk (i + 2 * j)) alarm.message),
          i + 2 * (k + 1)) := by
  induction k with
  | zero =>
    intro i fuel hk _ hf
    obtain ⟨f, rfl⟩ : ∃ f, fuel = f + 1 := ⟨fuel - 1, by omega⟩
    have hk2 : ¬ alarm.time > clk (i + 1) := by simpa using hk
    simp [display_loop, hk2, List.range_succ]
  | succ k ih =>
    intro i fuel hk hlt hf
    obtain ⟨f, rfl⟩ : ∃ f, fuel = f + 1 := ⟨fuel - 1, by omega⟩
    have h0 : alarm.time > clk (i + 1) := by simpa using hlt 0 (Nat.succ_pos k)
    have hk2 : alarm.time ≤ clk (i + 2 + 2 * k + 1) := by
      have e : i + 2 + 2 * k + 1 = i + 2 * (k + 1) + 1 := by ring
      rw [e]
      exact hk
    have hlt2 : ∀ j < k, alarm.time > clk (i + 2 + 2 * j + 1) := by
      intro j hj
      have e : i + 2 + 2 * j + 1 = i + 2 * (j + 1) + 1 := by ring
      rw [e]
      exact hlt (j + 1) (Nat.succ_lt_succ hj)
    have hrec := ih (i + 2) f hk2 hlt2 (by omega)
    simp only [display_loop, h0, if_true, hrec]
    rw [List.range_succ_eq_map (k + 1), List.map_cons, List.map_map]
    have e2 : i + 2 + 2 * (k + 1) = i + 2 * (k + 1 + 1) := by ring
    have e3 : ((fun j => Event.progress alarm.id (clk (i + 2 * j)) alarm.message) ∘ Nat.succ)
        = fun j => Event.progress alarm.id (clk (i + 2 + 2 * j)) alarm.message := by
      funext j
      have e : i + 2 * Nat.succ j = i + 2 + 2 * j := by
        simp only [Nat.succ_eq_add_one]
        ring
      simp only [Function.comp, e]
    simp [e2, e3]

/-- C10: for every alarm and every clock on which some loop test of `display_thread`
finds the deadline reached, one pass of the loop body ends (with any fuel above `k`,
the number of the first such test) and prints, in this order: one "Received" line,
`k + 1` "Printed by Alarm Display Thread" lines, one "Alarm Expired" line and the
closing "Removed" line; nothing else, so no progress line follows the expiry. -/
theorem C10_received_progress_expired (s : State) (alarm : alarm_t) (clk : Nat → Int)
    (hclk : ∃ j, alarm.time ≤ clk (2 * j + 2)) :
    ∃ k r, alarm.time ≤ clk (2 * k + 2)
      ∧ (∀ fuel, k < fuel → display_thread fuel s alarm clk = some r)
      ∧ r.2 = Event.received alarm.thread alarm.seconds alarm.message ::
          ((List.range (k + 1)).map
              (fun j => Event.progress alarm.id (clk (2 * j + 1)) alarm.message)
            ++ [Event.expired alarm.thread (clk (2 * k + 3)) alarm.seconds alarm.message,
                Event.removed alarm.id (clk (2 * k + 4)) alarm.seconds]) := by
  classical
  let k := Nat.find hclk
  have hk : alarm.time ≤ clk (2 * k + 2) := Nat.find_spec hclk
  have hmin : ∀ j < k, alarm.time > clk (2 * j + 2) := by
    intro j hj
    have := Nat.find_min hclk hj
    exact lt_of_not_ge this
  have hk1 : alarm.time ≤ clk (1 + 2 * k + 1) := by
    have e : 1 + 2 * k + 1 = 2 * k + 2 := by ring
    rw [e]
    exact hk
  have hmin1 : ∀ j < k, alarm.time > clk (1 + 2 * j + 1) := by
    intro j hj
    have e : 1 + 2 * j + 1 = 2 * j + 2 := by ring
    rw [e]
    exact hmin j hj
  have hloop := display_loop_finish alarm clk k 1
  have e3 : (fun j => Event.progress alarm.id (clk (1 + 2 * j)) alarm.message)
      = fun j => Event.progress alarm.id (clk (2 * j + 1)) alarm.message := by
    funext j
    rw [Nat.add_comm 1 (2 * j)]
  have e4 : 1 + 2 * (k + 1) = 2 * k + 3 := by ring
  have e5 : 2 * k + 3 + 1 = 2 * k + 4 := by ring
  refine ⟨k,
    (if alarm.thread = 1 then { s with thread1count := s.thread1count - 1 }
      else if alarm.thread = 2 then { s with thread2count := s.thread2count - 1 }
      else { s with thread3count := s.thread3count - 1 },
     Event.received alarm.thread alarm.seconds alarm.message ::
       ((List.range (k + 1)).map
           (fun j => Event.progress alarm.id (clk (2 * j + 1)) alarm.message)
         ++ [Event.expired alarm.thread (clk (2 * k + 3)) alarm.seconds alarm.message,
             Event.removed alarm.id (clk (2 * k + 4)) alarm.seconds])),
    hk, fun fuel hf => ?_, rfl⟩
  simp only [display_thread, hloop fuel hk1 hmin1 hf, e3, e4, e5, List.cons_append]

/-- Witness of C10: an alarm with deadline 1007 on a clock that starts at 1000 and
gains 5 seconds in every round of the loop. -/
theorem C10_received_progress_expired_witness :
    (∃ j, (⟨7, 1007, "hi", 1, 1⟩ : alarm_t).time ≤ (fun n : Nat => (1000 + 5 * (n / 2) : Int)) (2 * j + 2))
    ∧ ∃ k r, (∀ fuel, k < fuel →
          display_thread fuel State.init ⟨7, 1007, "hi", 1, 1⟩
            (fun n : Nat => (1000 + 5 * (n / 2) : Int)) = some r)
        ∧ r.2.head? = some (Event.received 1 7 "hi") :=
  have hw : ∃ j, (⟨7, 1007, "hi", 1, 1⟩ : alarm_t).time
      ≤ (fun n : Nat => (1000 + 5 * (n / 2) : Int)) (2 * j + 2) := ⟨1, by decide⟩
  ⟨hw,
    (C10_received_progress_expired State.init ⟨7, 1007, "hi", 1, 1⟩
      (fun n : Nat => (1000 + 5 * (n / 2) : Int)) hw).elim
      (fun k h => h.elim (fun r hr => ⟨k, r, hr.2.1, by rw [hr.2.2]; rfl⟩))⟩

end NewAlarmMutex

/-! ## Part 4: the main thread, and `alarm_mutex.c` -/

theorem digit_loop_eq_zero (id : List Char) (isDigit : Int) (h : digit_loop id isDigit = 0) :
    isDigit = 0 := by
  induction id with
  | nil => simpa [digit_loop] using h
  | cons c p ih =>
    simp only [digit_loop] at h
    split_ifs at h
    · exact absurd h (by decide)
    · exact ih h

theorem digit_loop_of_nondigit (id : List Char) (isDigit : Int)
    (h : ∃ c ∈ id, Libc.isdigit c = false) : digit_loop id isDigit = 1 := by
  induction id with
  | nil =>
    obtain ⟨c, hc, -⟩ := h
    cases hc
  | cons c p ih =>
    simp only [digit_loop]
    by_cases hd : Libc.isdigit c = true
    · obtain ⟨x, hx, hxd⟩ := h
      rcases List.mem_cons.1 hx with rfl | hp
      · rw [hd] at hxd
        cases hxd
      · simp only [hd, Bool.not_true, Bool.false_eq_true, if_false]
        exact ih ⟨x, hp, hxd⟩
    · simp [hd]

theorem main_parse_call (isDigit : Int) (line : List Char) (stale : Option (List Char))
    (command : Command) (id seconds : Int) (message : List Char)
    (h : (main_parse isDigit line stale).2 = Outcome.call command id seconds message) :
    0 ≤ id ∧ isDigit = 0 ∧ (main_parse isDigit line stale).1 = 0
      ∧ ∃ request, Libc.sscanf line = some (request, seconds, message) := by
  cases hp : main_parse isDigit line stale with
  | mk d o =>
    rw [hp] at h
    simp only at h
    subst h
    unfold main_parse at hp
    split at hp
    · simp at hp
    · split at hp
      · simp at hp
      · rename_i request sec msg hscan
        cases hid : (main_tokens request stale).id with
        | none => simp [hid] at hp
        | some idstr =>
          cases hcomm : (main_tokens request stale).comm with
          | none =>
            simp only [hid, hcomm] at hp
            split_ifs at hp <;> simp at hp
          | some comm =>
            simp only [hid, hcomm] at hp
            split_ifs at hp with h1 h2 h3 h4 h5 h6
            all_goals simp only [Prod.mk.injEq, reduceCtorEq, and_false,
              Outcome.call.injEq] at hp
            · obtain ⟨hd, -, rfl, rfl, rfl⟩ := hp
              exact ⟨h4, digit_loop_eq_zero _ _ h3, hd.symm.trans h3, _, hscan⟩
            · obtain ⟨hd, -, rfl, rfl, rfl⟩ := hp
              exact ⟨h4, digit_loop_eq_zero _ _ h3, hd.symm.trans h3, _, hscan⟩

theorem main_parse_fst (isDigit : Int) (line : List Char) (stale : Option (List Char)) :
    (main_parse isDigit line stale).1 = isDigit
      ∨ ∃ id, (main_parse isDigit line stale).1 = digit_loop id isDigit := by
  cases hp : main_parse isDigit line stale with
  | mk d o =>
    simp only
    unfold main_parse at hp
    split at hp
    · simp only [Prod.mk.injEq] at hp
      exact Or.inl hp.1.symm
    · split at hp
      · simp only [Prod.mk.injEq] at hp
        exact Or.inl hp.1.symm
      · rename_i request sec msg hscan
        cases hid : (main_tokens request stale).id with
        | none =>
          simp only [hid, Prod.mk.injEq] at hp
          exact Or.inl hp.1.symm
        | some idstr =>
          cases hcomm : (main_tokens request stale).comm with
          | none =>
            simp only [hid, hcomm] at hp
            split_ifs at hp <;> simp only [Prod.mk.injEq] at hp <;> exact Or.inl hp.1.symm
          | some comm =>
            simp only [hid, hcomm] at hp
            split_ifs at hp <;> simp only [Prod.mk.injEq] at hp <;>
              first
                | exact Or.inl hp.1.symm
                | exact Or.inr ⟨idstr, hp.1.symm⟩

theorem main_parse_flag (isDigit : Int) (line : List Char) (stale : Option (List Char))
    (h : isDigit ≠ 0) : (main_parse isDigit line stale).1 ≠ 0 := by
  rcases main_parse_fst isDigit line stale with e | ⟨id, e⟩
  · rw [e]
    exact h
  · rw [e]
    exact fun h0 => h (digit_loop_eq_zero id isDigit h0)

theorem main_parse_nondigit (isDigit : Int) (line : List Char) (stale : Option (List Char))
    (request : List Char) (seconds : Int) (message comm id : List Char)
    (hlen : 1 < line.length)
    (hscan : Libc.sscanf line = some (request, seconds, message))
    (hcomm : (main_tokens request stale).comm = some comm)
    (hc : comm = "Start_Alarm".toList ∨ comm = "Change_Alarm".toList)
    (hid : (main_tokens request stale).id = some id)
    (hnd : ∃ c ∈ id, Libc.isdigit c = false) :
    main_parse isDigit line stale = (1, Outcome.ignored) := by
  have hl : ¬ line.length ≤ 1 := not_le.2 hlen
  have hne : ¬ id.length = 0 := by
    obtain ⟨c, hc, -⟩ := hnd
    intro h0
    rw [List.length_eq_zero] at h0
    rw [h0] at hc
    cases hc
  have hcmd : ¬ (comm ≠ "Change_Alarm".toList ∧ comm ≠ "Start_Alarm".toList) := by
    rintro ⟨h1, h2⟩
    rcases hc with h | h
    · exact h2 h
    · exact h1 h
  have hloop := digit_loop_of_nondigit id isDigit hnd
  unfold main_parse
  simp only [if_neg hl, hscan, hid, hcomm, if_neg hne, if_neg hcmd, hloop]
  rfl


namespace NewAlarmMutex

theorem main_iteration_isDigit (isDigit : Int) (s : State) (i : Input) :
    (main_iteration isDigit s i).isDigit = (main_parse isDigit i.line i.stale).1 := by
  unfold main_iteration
  cases ho : (main_parse isDigit i.line i.stale).2 with
  | call command id seconds message => cases command <;> simp [ho]
  | _ => simp [ho]

theorem main_iteration_calls (isDigit : Int) (s : State) (i : Input) (c : Call)
    (hc : c ∈ (main_iteration isDigit s i).calls) :
    ∃ command id seconds message,
      (main_parse isDigit i.line i.stale).2 = Outcome.call command id seconds message
      ∧ c.alarm.id = id ∧ c.alarm.seconds = seconds ∧ c.alarm.message = String.mk message := by
  unfold main_iteration at hc
  cases ho : (main_parse isDigit i.line i.stale).2 with
  | call command id seconds message =>
    cases command
    · simp only [ho, List.mem_singleton] at hc
      subst hc
      exact ⟨_, _, _, _, rfl, rfl, rfl, rfl⟩
    · simp only [ho, List.mem_singleton] at hc
      subst hc
      exact ⟨_, _, _, _, rfl, rfl, rfl, rfl⟩
  | skipped => simp [ho] at hc
  | bad_command => simp [ho] at hc
  | fault => simp [ho] at hc
  | ignored => simp [ho] at hc

theorem main_iteration_flag (isDigit : Int) (s : State) (i : Input) (h : isDigit ≠ 0) :
    (main_iteration isDigit s i).isDigit ≠ 0 ∧ (main_iteration isDigit s i).calls = [] := by
  refine ⟨?_, ?_⟩
  · rw [main_iteration_isDigit]
    exact main_parse_flag isDigit i.line i.stale h
  · rw [List.eq_nil_iff_forall_not_mem]
    intro c hc
    obtain ⟨command, id, seconds, message, hp, -⟩ := main_iteration_calls isDigit s i c hc
    exact h (main_parse_call isDigit i.line i.stale command id seconds message hp).2.1

theorem main_loop_flag (inputs : List Input) (isDigit : Int) (s : State) (h : isDigit ≠ 0) :
    (main_loop isDigit s inputs).2.2 = [] ∧ (main_loop isDigit s inputs).1 ≠ 0 := by
  induction inputs generalizing isDigit s with
  | nil => exact ⟨rfl, h⟩
  | cons i rest ih =>
    have hf := main_iteration_flag isDigit s i h
    simp only [main_loop]
    split_ifs
    · exact ⟨hf.2, hf.1⟩
    · have hr := ih (main_iteration isDigit s i).isDigit (main_iteration isDigit s i).state hf.1
      simp only [hf.2, hr.1, List.append_nil]
      exact ⟨trivial, hr.2⟩

theorem main_loop_calls (inputs : List Input) (isDigit : Int) (s : State) (c : Call)
    (hc : c ∈ (main_loop isDigit s inputs).2.2) :
    ∃ d st i, i ∈ inputs ∧ c ∈ (main_iteration d st i).calls := by
  induction inputs generalizing isDigit s with
  | nil => simp [main_loop] at hc
  | cons i rest ih =>
    simp only [main_loop] at hc
    split_ifs at hc
    · exact ⟨isDigit, s, i, List.mem_cons_self _ _, hc⟩
    · rcases List.mem_append.1 hc with h1 | h2
      · exact ⟨isDigit, s, i, List.mem_cons_self _ _, h1⟩
      · obtain ⟨d, st, j, hj, hcj⟩ := ih _ _ h2
        exact ⟨d, st, j, List.mem_cons_of_mem _ hj, hcj⟩

end NewAlarmMutex

namespace AlarmMutex

theorem am_main_iteration_isDigit (isDigit : Int) (s : State) (i : Input) :
    (main_iteration isDigit s i).isDigit = (main_parse isDigit i.line i.stale).1 := by
  unfold main_iteration
  cases ho : (main_parse isDigit i.line i.stale).2 with
  | call command id seconds message => cases command <;> simp [ho]
  | _ => simp [ho]

theorem am_main_iteration_calls (isDigit : Int) (s : State) (i : Input) (c : Call)
    (hc : c ∈ (main_iteration isDigit s i).calls) :
    ∃ command id seconds message,
      (main_parse isDigit i.line i.stale).2 = Outcome.call command id seconds message
      ∧ c.alarm.id = id ∧ c.alarm.seconds = seconds ∧ c.alarm.message = String.mk message := by
  unfold main_iteration at hc
  cases ho : (main_parse isDigit i.line i.stale).2 with
  | call command id seconds message =>
    cases command
    · simp only [ho, List.mem_singleton] at hc
      subst hc
      exact ⟨_, _, _, _, rfl, rfl, rfl, rfl⟩
    · simp only [ho, List.mem_singleton] at hc
      subst hc
      exact ⟨_, _, _, _, rfl, rfl, rfl, rfl⟩
  | skipped => simp [ho] at hc
  | bad_command => simp [ho] at hc
  | fault => simp [ho] at hc
  | ignored => simp [ho] at hc

theorem am_main_iteration_flag (isDigit : Int) (s : State) (i : Input) (h : isDigit ≠ 0) :
    (main_iteration isDigit s i).isDigit ≠ 0 ∧ (main_iteration isDigit s i).calls = [] := by
  refine ⟨?_, ?_⟩
  · rw [am_main_iteration_isDigit]
    exact main_parse_flag isDigit i.line i.stale h
  · rw [List.eq_nil_iff_forall_not_mem]
    intro c hc
    obtain ⟨command, id, seconds, message, hp, -⟩ := am_main_iteration_calls isDigit s i c hc
    exact h (main_parse_call isDigit i.line i.stale command id seconds message hp).2.1

theorem am_main_loop_flag (inputs : List Input) (isDigit : Int) (s : State) (h : isDigit ≠ 0) :
    (main_loop isDigit s inputs).2.2 = [] ∧ (main_loop isDigit s inputs).1 ≠ 0 := by
  induction inputs generalizing isDigit s with
  | nil => exact ⟨rfl, h⟩
  | cons i rest ih =>
    have hf := am_main_iteration_flag isDigit s i h
    simp only [main_loop]
    split_ifs
    · exact ⟨hf.2, hf.1⟩
    · have hr := ih (main_iteration isDigit s i).isDigit (main_iteration isDigit s i).state hf.1
      simp only [hf.2, hr.1, List.append_nil]
      exact ⟨trivial, hr.2⟩

theorem am_main_loop_calls (inputs : List Input) (isDigit : Int) (s : State) (c : Call)
    (hc : c ∈ (main_loop isDigit s inputs).2.2) :
    ∃ d st i, i ∈ inputs ∧ c ∈ (main_iteration d st i).calls := by
  induction inputs generalizing isDigit s with
  | nil => simp [main_loop] at hc
  | cons i rest ih =>
    simp only [main_loop] at hc
    split_ifs at hc
    · exact ⟨isDigit, s, i, List.mem_cons_self _ _, hc⟩
    · rcases List.mem_append.1 hc with h1 | h2
      · exact ⟨isDigit, s, i, List.mem_cons_self _ _, h1⟩
      · obtain ⟨d, st, j, hj, hcj⟩ := ih _ _ h2
        exact ⟨d, st, j, List.mem_cons_of_mem _ hj, hcj⟩

end AlarmMutex

namespace NewAlarmMutex

/-- C11 (the claim as stated fails): the line `Start_Alarm(1): -5 hello` makes the `main`
of `new_alarm_mutex.c` call `alarm_insert` with seconds -5 (and deadline 995 at time
1000), and the line `Change_Alarm(1): -5 hello` makes the `main` of `alarm_mutex.c` call
`alarm_edit` with seconds -5. -/
theorem C11_negative_seconds_are_passed :
    (main_iteration 0 State.init
        ⟨"Start_Alarm(1): -5 hello\n".toList, none, ⟨0, 0, "", 0, 0⟩, 1000⟩).calls
      = [Call.alarm_insert ⟨-5, 995, "hello", 1, 0⟩]
    ∧ (AlarmMutex.main_iteration 0 AlarmMutex.State.init
        ⟨"Change_Alarm(1): -5 hello\n".toList, none, ⟨0, 0, "", 0⟩, 1000⟩).calls
      = [AlarmMutex.Call.alarm_edit ⟨-5, 0, "hello", 1⟩] := by
  constructor <;> rfl

/-- C11 (amended): every record `main` passes to `alarm_insert` or `alarm_edit` has
id >= 0, and its seconds and message are the values `sscanf` stored from the line that
led to the call, whatever the sign of the seconds. Stated for one turn of the loop from
any flag and any globals, and for the whole loop over any input, in both files. -/
theorem C11_calls_pass_nonnegative_id (isDigit : Int) (s : State) (i : Input)
    (inputs : List Input) (s2 : AlarmMutex.State) (i2 : AlarmMutex.Input)
    (inputs2 : List AlarmMutex.Input) :
    (∀ c ∈ (main_iteration isDigit s i).calls,
        0 ≤ c.alarm.id
        ∧ ∃ request message, Libc.sscanf i.line = some (request, c.alarm.seconds, message)
            ∧ c.alarm.message = String.mk message)
    ∧ (∀ c ∈ (main_loop isDigit s inputs).2.2,
        0 ≤ c.alarm.id
        ∧ ∃ j ∈ inputs, ∃ request message,
            Libc.sscanf j.line = some (request, c.alarm.seconds, message)
            ∧ c.alarm.message = String.mk message)
    ∧ (∀ c ∈ (AlarmMutex.main_iteration isDigit s2 i2).calls,
        0 ≤ c.alarm.id
        ∧ ∃ request message, Libc.sscanf i2.line = some (request, c.alarm.seconds, message)
            ∧ c.alarm.message = String.mk message)
    ∧ (∀ c ∈ (AlarmMutex.main_loop isDigit s2 inputs2).2.2,
        0 ≤ c.alarm.id
        ∧ ∃ j ∈ inputs2, ∃ request message,
            Libc.sscanf j.line = some (request, c.alarm.seconds, message)
            ∧ c.alarm.message = String.mk message) := by
  have one : ∀ (d : Int) (st : State) (j : Input), ∀ c ∈ (main_iteration d st j).calls,
      0 ≤ c.alarm.id
      ∧ ∃ request message, Libc.sscanf j.line = some (request, c.alarm.seconds, message)
          ∧ c.alarm.message = String.mk message := by
    intro d st j c hc
    obtain ⟨command, id, seconds, message, hp, h1, h2, h3⟩ := main_iteration_calls d st j c hc
    obtain ⟨hid, -, -, request, hscan⟩ :=
      main_parse_call d j.line j.stale command id seconds message hp
    exact ⟨by rw [h1]; exact hid, request, message, by rw [h2]; exact hscan, h3⟩
  have two : ∀ (d : Int) (st : AlarmMutex.State) (j : AlarmMutex.Input),
      ∀ c ∈ (AlarmMutex.main_iteration d st j).calls,
      0 ≤ c.alarm.id
      ∧ ∃ request message, Libc.sscanf j.line = some (request, c.alarm.seconds, message)
          ∧ c.alarm.message = String.mk message := by
    intro d st j c hc
    obtain ⟨command, id, seconds, message, hp, h1, h2, h3⟩ :=
      AlarmMutex.am_main_iteration_calls d st j c hc
    obtain ⟨hid, -, -, request, hscan⟩ :=
      main_parse_call d j.line j.stale command id seconds message hp
    exact ⟨by rw [h1]; exact hid, request, message, by rw [h2]; exact hscan, h3⟩
  refine ⟨one isDigit s i, ?_, two isDigit s2 i2, ?_⟩
  · intro c hc
    obtain ⟨d, st, j, hj, hcj⟩ := main_loop_calls inputs isDigit s c hc
    obtain ⟨h1, request, message, h2, h3⟩ := one d st j c hcj
    exact ⟨h1, j, hj, request, message, h2, h3⟩
  · intro c hc
    obtain ⟨d, st, j, hj, hcj⟩ := AlarmMutex.am_main_loop_calls inputs2 isDigit s2 c hc
    obtain ⟨h1, request, message, h2, h3⟩ := two d st j c hcj
    exact ⟨h1, j, hj, request, message, h2, h3⟩

/-- Witness of C11 (amended): the calls made for `Start_Alarm(1): -5 hello` and for
`Change_Alarm(7): 3 b` pass ids 1 and 7. -/
theorem C11_calls_pass_nonnegative_id_witness :
    (Call.alarm_insert ⟨-5, 995, "hello", 1, 0⟩
        ∈ (main_iteration 0 State.init
            ⟨"Start_Alarm(1): -5 hello\n".toList, none, ⟨0, 0, "", 0, 0⟩, 1000⟩).calls
      ∧ 0 ≤ (Call.alarm_insert ⟨-5, 995, "hello", 1, 0⟩).alarm.id)
    ∧ (AlarmMutex.Call.alarm_edit ⟨3, 0, "b", 7⟩
        ∈ (AlarmMutex.main_iteration 0 AlarmMutex.State.init
            ⟨"Change_Alarm(7): 3 b\n".toList, none, ⟨0, 0, "", 0⟩, 1002⟩).calls
      ∧ 0 ≤ (AlarmMutex.Call.alarm_edit ⟨3, 0, "b", 7⟩).alarm.id) :=
  have w := C11_calls_pass_nonnegative_id 0 State.init
    ⟨"Start_Alarm(1): -5 hello\n".toList, none, ⟨0, 0, "", 0, 0⟩, 1000⟩ []
    AlarmMutex.State.init ⟨"Change_Alarm(7): 3 b\n".toList, none, ⟨0, 0, "", 0⟩, 1002⟩ []
  have m1 : Call.alarm_insert ⟨-5, 995, "hello", 1, 0⟩
      ∈ (main_iteration 0 State.init
          ⟨"Start_Alarm(1): -5 hello\n".toList, none, ⟨0, 0, "", 0, 0⟩, 1000⟩).calls := by
    decide
  have m2 : AlarmMutex.Call.alarm_edit ⟨3, 0, "b", 7⟩
      ∈ (AlarmMutex.main_iteration 0 AlarmMutex.State.init
          ⟨"Change_Alarm(7): 3 b\n".toList, none, ⟨0, 0, "", 0⟩, 1002⟩).calls := by
    decide
  ⟨⟨m1, (w.1 _ m1).1⟩, ⟨m2, (w.2.2.1 _ m2).1⟩⟩

end NewAlarmMutex

namespace AlarmMutex

/-- C12 (the claim as stated fails): three alarms with deadlines 1010, 1050 and 1060
are inserted in the initial state, which leaves the counts at 1, 1, 1 and
`current_alarm_1..3` at 1010, 1050, 1060. Inserting a fourth alarm with deadline 1020
signals display thread 2 and raises its count to 2, although thread 1 has the same
count: 1020 is not earlier than `current_alarm_1`, so the first branch is skipped. -/
theorem C12_tie_goes_to_thread_2 :
    insert_all State.init [⟨10, 1010, "a", 1⟩, ⟨50, 1050, "b", 2⟩, ⟨60, 1060, "c", 3⟩] 1000
      = { alarm_list := [⟨10, 1010, "a", 1⟩, ⟨50, 1050, "b", 2⟩, ⟨60, 1060, "c", 3⟩],
          display1_count := 1, display2_count := 1, display3_count := 1,
          current_alarm := 0, current_alarm_1 := 1010, current_alarm_2 := 1050,
          current_alarm_3 := 1060 }
    ∧ (alarm_insert
        { alarm_list := [⟨10, 1010, "a", 1⟩, ⟨50, 1050, "b", 2⟩, ⟨60, 1060, "c", 3⟩],
          display1_count := 1, display2_count := 1, display3_count := 1,
          current_alarm := 0, current_alarm_1 := 1010, current_alarm_2 := 1050,
          current_alarm_3 := 1060 }
        ⟨20, 1020, "d", 4⟩ 1000).2
      = [Event.created 2 4 1000 "d", Event.signal Cond.alarm_cond2]
    ∧ (alarm_insert
        { alarm_list := [⟨10, 1010, "a", 1⟩, ⟨50, 1050, "b", 2⟩, ⟨60, 1060, "c", 3⟩],
          display1_count := 1, display2_count := 1, display3_count := 1,
          current_alarm := 0, current_alarm_1 := 1010, current_alarm_2 := 1050,
          current_alarm_3 := 1060 }
        ⟨20, 1020, "d", 4⟩ 1000).1.display2_count = 2 := by
  refine ⟨?_, ?_, ?_⟩
  · simp [insert_all, alarm_insert, alarm_insert_list, State.init]
  · simp [alarm_insert, alarm_insert_list]
  · simp [alarm_insert, alarm_insert_list]

/-- C12 (amended): `alarm_insert` of `alarm_mutex.c` tries the display threads in the
order 1, 2, 3, each behind its time test (`current_alarm_k == 0` or the new deadline
earlier than `current_alarm_k`). When it signals thread 2 or thread 3, that thread's
count was the smallest of the three, and a thread of lower index with the same count
was passed over only because its time test failed. When it signals thread 1, the time
test of thread 1 held and its count was at most that of thread 2. The count of the
thread signalled grows by one and the other two are unchanged; with no signal no count
changes. -/
theorem C12_signalled_thread_and_counts (s : State) (alarm : alarm_t) (now : Int) :
    (Event.signal Cond.alarm_cond1 ∈ (alarm_insert s alarm now).2 →
        (s.current_alarm_1 = 0 ∨ alarm.time < s.current_alarm_1)
        ∧ s.display1_count ≤ s.display2_count
        ∧ (alarm_insert s alarm now).1.display1_count = s.display1_count + 1
        ∧ (alarm_insert s alarm now).1.display2_count = s.display2_count
        ∧ (alarm_insert s alarm now).1.display3_count = s.display3_count)
    ∧ (Event.signal Cond.alarm_cond2 ∈ (alarm_insert s alarm now).2 →
        (s.current_alarm_2 = 0 ∨ alarm.time < s.current_alarm_2)
        ∧ s.display2_count ≤ s.display1_count ∧ s.display2_count ≤ s.display3_count
        ∧ (s.display1_count = s.display2_count →
            ¬ (s.current_alarm_1 = 0 ∨ alarm.time < s.current_alarm_1))
        ∧ (alarm_insert s alarm now).1.display1_count = s.display1_count
        ∧ (alarm_insert s alarm now).1.display2_count = s.display2_count + 1
        ∧ (alarm_insert s alarm now).1.display3_count = s.display3_count)
    ∧ (Event.signal Cond.alarm_cond3 ∈ (alarm_insert s alarm now).2 →
        (s.current_alarm_3 = 0 ∨ alarm.time < s.current_alarm_3)
        ∧ s.display3_count ≤ s.display1_count ∧ s.display3_count ≤ s.display2_count
        ∧ (s.display1_count = s.display3_count →
            ¬ (s.current_alarm_1 = 0 ∨ alarm.time < s.current_alarm_1))
        ∧ (s.display2_count = s.display3_count →
            ¬ (s.current_alarm_2 = 0 ∨ alarm.time < s.current_alarm_2))
        ∧ (alarm_insert s alarm now).1.display1_count = s.display1_count
        ∧ (alarm_insert s alarm now).1.display2_count = s.display2_count
        ∧ (alarm_insert s alarm now).1.display3_count = s.display3_count + 1)
    ∧ ((∀ c, Event.signal c ∉ (alarm_insert s alarm now).2) →
        (alarm_insert s alarm now).1.display1_count = s.display1_count
        ∧ (alarm_insert s alarm now).1.display2_count = s.display2_count
        ∧ (alarm_insert s alarm now).1.display3_count = s.display3_count) := by
  simp only [alarm_insert]
  split_ifs with h1 h2 h3
  · refine ⟨fun _ => ⟨h1.1, h1.2.1, rfl, rfl, rfl⟩, ?_, ?_, ?_⟩
    · intro h
      simp at h
    · intro h
      simp at h
    · intro h
      exact absurd (by simp) (h Cond.alarm_cond1)
  · refine ⟨?_, fun _ => ⟨h2.1, h2.2.1, h2.2.2, ?_, rfl, rfl, rfl⟩, ?_, ?_⟩
    · intro h
      simp at h
    · intro he hg
      exact h1 ⟨hg, le_of_eq he, le_of_eq he⟩
    · intro h
      simp at h
    · intro h
      exact absurd (by simp) (h Cond.alarm_cond2)
  · refine ⟨?_, ?_, fun _ => ⟨h3.1, h3.2.1, h3.2.2, ?_, ?_, rfl, rfl, rfl⟩, ?_⟩
    · intro h
      simp at h
    · intro h
      simp at h
    · intro he hg
      have hle : s.display1_count ≤ s.display2_count := by
        rw [he]
        exact h3.2.2
      exact h1 ⟨hg, hle, hle⟩
    · intro he hg
      have h21 : s.display2_count ≤ s.display1_count := by
        rw [he]
        exact h3.2.1
      exact h2 ⟨hg, h21, le_of_eq he⟩
    · intro h
      exact absurd (by simp) (h Cond.alarm_cond3)
  · refine ⟨?_, ?_, ?_, fun _ => ⟨rfl, rfl, rfl⟩⟩
    · intro h
      simp at h
    · intro h
      simp at h
    · intro h
      simp at h

/-- Witness of C12 (amended): counts 0, 0, 0 with `current_alarm_1` = 1100; an alarm with
deadline 1200 is given to display thread 2, whose count 0 is the smallest, because the
time test of thread 1 fails. -/
theorem C12_signalled_thread_and_counts_witness :
    Event.signal Cond.alarm_cond2
        ∈ (alarm_insert { State.init with current_alarm_1 := 1100 } ⟨200, 1200, "x", 9⟩ 1000).2
    ∧ (alarm_insert { State.init with current_alarm_1 := 1100 }
        ⟨200, 1200, "x", 9⟩ 1000).1.display2_count = 0 + 1
    ∧ ¬ ((1100 : Int) = 0 ∨ (1200 : Int) < 1100) :=
  have m : Event.signal Cond.alarm_cond2
      ∈ (alarm_insert { State.init with current_alarm_1 := 1100 }
          ⟨200, 1200, "x", 9⟩ 1000).2 := by
    decide
  have w := (C12_signalled_thread_and_counts { State.init with current_alarm_1 := 1100 }
    ⟨200, 1200, "x", 9⟩ 1000).2.1 m
  ⟨m, w.2.2.2.2.2.1, w.2.2.2.1 rfl⟩

end AlarmMutex

namespace NewAlarmMutex

/-- C13 (fails on the code): one alarm is pending in the initial state and the alarm
thread hands it to a new display thread whose handle is 10: `thread1count` becomes 1
and `alarm->thread` becomes 10. When that alarm expires, `display_thread` compares
`alarm->thread` with 1 and 2, finds neither, and decrements `thread3count`: the counts
end at 1, 0, -1 instead of returning to 0, 0, 0. -/
theorem C13_expiry_decrements_another_counter :
    alarm_thread_iteration { State.init with alarm_list := [⟨10, 1010, "a", 1, 0⟩] }
        ⟨5, 5, 5⟩ 10 1000
      = some ({ State.init with
                  thread1 := 1, thread1count := 1, display_thread_count := 1,
                  curr_alarm := some ⟨10, 1010, "a", 1, 10⟩ },
              ⟨9, 4, 4⟩,
              [Event.pthread_create 1, Event.created 10 1 1000 10 "a",
               Event.signal Cond.display_1, Event.signal Cond.display_1])
    ∧ display_thread 1
        { State.init with
            thread1 := 1, thread1count := 1, display_thread_count := 1,
            curr_alarm := some ⟨10, 1010, "a", 1, 10⟩ }
        ⟨10, 1010, "a", 1, 10⟩ (fun _ => 1010)
      = some ({ State.init with
                  thread1 := 1, thread1count := 1, thread3count := -1,
                  display_thread_count := 1,
                  curr_alarm := some ⟨10, 1010, "a", 1, 10⟩ },
              [Event.received 10 10 "a", Event.progress 1 1010 "a",
               Event.expired 10 1010 10 "a", Event.removed 1 1010 10]) := by
  constructor
  · simp [alarm_thread_iteration, alarm_thread_dispatch, count_display, create_display,
      assign_existing, teardown, State.init, decr, toInt]
  · simp [display_thread, display_loop, State.init]

end NewAlarmMutex

namespace NewAlarmMutex

theorem insert_list_splits (l : List alarm_t) (alarm : alarm_t) :
    ∃ pre post, l = pre ++ post ∧ alarm_insert_list l alarm = pre ++ alarm :: post
      ∧ (∀ e ∈ pre, e.id < alarm.id) ∧ (∀ e, post.head? = some e → alarm.id ≤ e.id) := by
  induction l with
  | nil =>
    refine ⟨[], [], rfl, rfl, ?_, ?_⟩
    · intro e he
      cases he
    · intro e he
      cases he
  | cons next rest ih =>
    by_cases hc : next.id ≥ alarm.id
    · refine ⟨[], next :: rest, rfl, ?_, ?_, ?_⟩
      · simp [alarm_insert_list, hc]
      · intro e he
        cases he
      · intro e he
        simp only [List.head?_cons, Option.some.injEq] at he
        rw [← he]
        exact hc
    · obtain ⟨pre, post, h1, h2, h3, h4⟩ := ih
      refine ⟨next :: pre, post, ?_, ?_, ?_, h4⟩
      · rw [h1, List.cons_append]
      · simp [alarm_insert_list, hc, h2]
      · intro e he
        rcases List.mem_cons.1 he with rfl | hp
        · exact lt_of_not_ge hc
        · exact h3 e hp

theorem insert_list_sorted (l : List alarm_t) (alarm : alarm_t)
    (h : l.Pairwise (fun a b => a.id ≤ b.id)) :
    (alarm_insert_list l alarm).Pairwise (fun a b => a.id ≤ b.id) := by
  induction l with
  | nil => simp [alarm_insert_list]
  | cons next rest ih =>
    rw [List.pairwise_cons] at h
    simp only [alarm_insert_list]
    split_ifs with hc
    · refine List.pairwise_cons.2 ⟨?_, List.pairwise_cons.2 h⟩
      intro e he
      rcases List.mem_cons.1 he with rfl | hr
      · exact hc
      · exact le_trans hc (h.1 e hr)
    · refine List.pairwise_cons.2 ⟨?_, ih h.2⟩
      intro e he
      obtain ⟨pre, post, h1, h2, h3, -⟩ := insert_list_splits rest alarm
      rw [h2] at he
      rcases List.mem_append.1 he with hp | hq
      · exact h.1 e (by rw [h1]; exact List.mem_append_left _ hp)
      · rcases List.mem_cons.1 hq with rfl | hq2
        · exact le_of_lt (lt_of_not_ge hc)
        · exact h.1 e (by rw [h1]; exact List.mem_append_right _ hq2)

theorem edit_loop_found (l : List alarm_t) (request : alarm_t)
    (h : ∃ e ∈ l, e.id = request.id) :
    ∃ pre next post, l = pre ++ next :: post ∧ (∀ e ∈ pre, e.id ≠ request.id)
      ∧ next.id = request.id
      ∧ (alarm_edit_loop l request).1 = some next
      ∧ (alarm_edit_loop l request).2.2
          = { request with message := next.message, seconds := next.seconds } := by
  induction l with
  | nil =>
    obtain ⟨e, he, -⟩ := h
    cases he
  | cons hd rest ih =>
    by_cases hc : hd.id = request.id
    · refine ⟨[], hd, rest, rfl, ?_, hc, ?_, ?_⟩
      · intro e he
        cases he
      · simp [alarm_edit_loop, hc]
      · simp [alarm_edit_loop, hc]
    · have h2 : ∃ e ∈ rest, e.id = request.id := by
        obtain ⟨e, he, hid⟩ := h
        rcases List.mem_cons.1 he with rfl | hr
        · exact absurd hid hc
        · exact ⟨e, hr, hid⟩
      obtain ⟨pre, next, post, h1, h3, h4, h5, h6⟩ := ih h2
      refine ⟨hd :: pre, next, post, ?_, ?_, h4, ?_, ?_⟩
      · rw [h1, List.cons_append]
      · intro e he
        rcases List.mem_cons.1 he with rfl | hp
        · exact hc
        · exact h3 e hp
      · simp [alarm_edit_loop, hc, h5]
      · simp [alarm_edit_loop, hc, h6]

end NewAlarmMutex

namespace AlarmMutex

theorem am_insert_list_splits (l : List alarm_t) (alarm : alarm_t) :
    ∃ pre post, l = pre ++ post ∧ alarm_insert_list l alarm = pre ++ alarm :: post
      ∧ (∀ e ∈ pre, e.id < alarm.id) ∧ (∀ e, post.head? = some e → alarm.id ≤ e.id) := by
  induction l with
  | nil =>
    refine ⟨[], [], rfl, rfl, ?_, ?_⟩
    · intro e he
      cases he
    · intro e he
      cases he
  | cons next rest ih =>
    by_cases hc : next.id ≥ alarm.id
    · refine ⟨[], next :: rest, rfl, ?_, ?_, ?_⟩
      · simp [alarm_insert_list, hc]
      · intro e he
        cases he
      · intro e he
        simp only [List.head?_cons, Option.some.injEq] at he
        rw [← he]
        exact hc
    · obtain ⟨pre, post, h1, h2, h3, h4⟩ := ih
      refine ⟨next :: pre, post, ?_, ?_, ?_, h4⟩
      · rw [h1, List.cons_append]
      · simp [alarm_insert_list, hc, h2]
      · intro e he
        rcases List.mem_cons.1 he with rfl | hp
        · exact lt_of_not_ge hc
        · exact h3 e hp

theorem am_insert_list_sorted (l : List alarm_t) (alarm : alarm_t)
    (h : l.Pairwise (fun a b => a.id ≤ b.id)) :
    (alarm_insert_list l alarm).Pairwise (fun a b => a.id ≤ b.id) := by
  induction l with
  | nil => simp [alarm_insert_list]
  | cons next rest ih =>
    rw [List.pairwise_cons] at h
    simp only [alarm_insert_list]
    split_ifs with hc
    · refine List.pairwise_cons.2 ⟨?_, List.pairwise_cons.2 h⟩
      intro e he
      rcases List.mem_cons.1 he with rfl | hr
      · exact hc
      · exact le_trans hc (h.1 e hr)
    · refine List.pairwise_cons.2 ⟨?_, ih h.2⟩
      intro e he
      obtain ⟨pre, post, h1, h2, h3, -⟩ := am_insert_list_splits rest alarm
      rw [h2] at he
      rcases List.mem_append.1 he with hp | hq
      · exact h.1 e (by rw [h1]; exact List.mem_append_left _ hp)
      · rcases List.mem_cons.1 hq with rfl | hq2
        · exact le_of_lt (lt_of_not_ge hc)
        · exact h.1 e (by rw [h1]; exact List.mem_append_right _ hq2)

theorem am_edit_loop_found (l : List alarm_t) (request : alarm_t)
    (h : ∃ e ∈ l, e.id = request.id) :
    ∃ pre next post, l = pre ++ next :: post ∧ (∀ e ∈ pre, e.id ≠ request.id)
      ∧ next.id = request.id
      ∧ (alarm_edit_loop l request).1 = some next
      ∧ (alarm_edit_loop l request).2.2
          = { request with message := next.message, seconds := next.seconds } := by
  induction l with
  | nil =>
    obtain ⟨e, he, -⟩ := h
    cases he
  | cons hd rest ih =>
    by_cases hc : hd.id = request.id
    · refine ⟨[], hd, rest, rfl, ?_, hc, ?_, ?_⟩
      · intro e he
        cases he
      · simp [alarm_edit_loop, hc]
      · simp [alarm_edit_loop, hc]
    · have h2 : ∃ e ∈ rest, e.id = request.id := by
        obtain ⟨e, he, hid⟩ := h
        rcases List.mem_cons.1 he with rfl | hr
        · exact absurd hid hc
        · exact ⟨e, hr, hid⟩
      obtain ⟨pre, next, post, h1, h3, h4, h5, h6⟩ := ih h2
      refine ⟨hd :: pre, next, post, ?_, ?_, h4, ?_, ?_⟩
      · rw [h1, List.cons_append]
      · intro e he
        rcases List.mem_cons.1 he with rfl | hp
        · exact hc
        · exact h3 e hp
      · simp [alarm_edit_loop, hc, h5]
      · simp [alarm_edit_loop, hc, h6]

end AlarmMutex

namespace AlarmMutex

theorem am_alarm_insert_alarm_list (s : State) (alarm : alarm_t) (now : Int) :
    (alarm_insert s alarm now).1.alarm_list = alarm_insert_list s.alarm_list alarm := by
  simp only [alarm_insert]
  split_ifs <;> rfl

theorem am_step_sorted (s : State) (op : Op)
    (h : s.alarm_list.Pairwise (fun a b => a.id ≤ b.id)) :
    (step s op).alarm_list.Pairwise (fun a b => a.id ≤ b.id) := by
  cases op with
  | insert alarm now =>
    simp only [step, am_alarm_insert_alarm_list]
    exact am_insert_list_sorted _ _ h
  | take_head => exact h.sublist (List.tail_sublist _)

theorem am_run_sorted (ops : List Op) (s : State)
    (h : s.alarm_list.Pairwise (fun a b => a.id ≤ b.id)) :
    (run s ops).alarm_list.Pairwise (fun a b => a.id ≤ b.id) := by
  induction ops generalizing s with
  | nil => exact h
  | cons op ops ih =>
    simp only [run, List.foldl_cons]
    exact ih (step s op) (am_step_sorted s op h)

theorem am_alarm_edit_alarm (s : State) (request : alarm_t) :
    (alarm_edit s request).alarm = (alarm_edit_loop s.alarm_list request).2.2 := by
  simp only [alarm_edit]
  split <;> rfl

end AlarmMutex

namespace NewAlarmMutex

theorem step_sorted (c : State × Locals) (op : Op)
    (h : c.1.alarm_list.Pairwise (fun a b => a.id ≤ b.id)) :
    (step c op).1.alarm_list.Pairwise (fun a b => a.id ≤ b.id) := by
  cases op with
  | insert alarm =>
    simp only [step, alarm_insert_alarm_list]
    exact insert_list_sorted _ _ h
  | dispatch handle now =>
    cases hl : c.1.alarm_list with
    | nil =>
      simp only [step, alarm_thread_iteration, hl]
      exact List.Pairwise.nil
    | cons a rest =>
      rw [hl, List.pairwise_cons] at h
      simp only [step, alarm_thread_iteration_of_cons c.1 c.2 handle now a rest hl,
        dispatch_alarm_list]
      exact h.2

theorem run_sorted (ops : List Op) (c : State × Locals)
    (h : c.1.alarm_list.Pairwise (fun a b => a.id ≤ b.id)) :
    (run c ops).1.alarm_list.Pairwise (fun a b => a.id ≤ b.id) := by
  induction ops generalizing c with
  | nil => exact h
  | cons op ops ih =>
    simp only [run, List.foldl_cons]
    exact ih (step c op) (step_sorted c op h)

end NewAlarmMutex

namespace NewAlarmMutex

/-- C14: `alarm_insert` keeps the pending list sorted by id. In both files, if the list
is non-decreasing in id before the call it is non-decreasing in id after it; so every
list reached from the empty list by `alarm_insert` calls and removals of the head is
non-decreasing in id. -/
theorem C14_list_sorted_by_id (s : State) (alarm : alarm_t) (L : Locals) (ops : List Op)
    (s2 : AlarmMutex.State) (alarm2 : AlarmMutex.alarm_t) (now : Int)
    (ops2 : List AlarmMutex.Op)
    (h : s.alarm_list.Pairwise (fun a b => a.id ≤ b.id))
    (h2 : s2.alarm_list.Pairwise (fun a b => a.id ≤ b.id)) :
    (alarm_insert s alarm).1.alarm_list.Pairwise (fun a b => a.id ≤ b.id)
    ∧ (AlarmMutex.alarm_insert s2 alarm2 now).1.alarm_list.Pairwise (fun a b => a.id ≤ b.id)
    ∧ (run (State.init, L) ops).1.alarm_list.Pairwise (fun a b => a.id ≤ b.id)
    ∧ (AlarmMutex.run AlarmMutex.State.init ops2).alarm_list.Pairwise
        (fun a b => a.id ≤ b.id) := by
  refine ⟨?_, ?_, run_sorted ops (State.init, L) List.Pairwise.nil,
    AlarmMutex.am_run_sorted ops2 AlarmMutex.State.init List.Pairwise.nil⟩
  · rw [alarm_insert_alarm_list]
    exact insert_list_sorted _ _ h
  · rw [AlarmMutex.am_alarm_insert_alarm_list]
    exact AlarmMutex.am_insert_list_sorted _ _ h2

/-- Witness of C14: alarm 5 inserted into the list of alarms 3 and 7, in both files. -/
theorem C14_list_sorted_by_id_witness :
    (alarm_insert { State.init with alarm_list := [⟨10, 1010, "a", 3, 0⟩, ⟨20, 1020, "b", 7, 0⟩] }
        ⟨30, 1030, "c", 5, 0⟩).1.alarm_list.Pairwise (fun a b => a.id ≤ b.id)
    ∧ (AlarmMutex.alarm_insert
        { AlarmMutex.State.init with alarm_list := [⟨10, 1010, "a", 3⟩, ⟨20, 1020, "b", 7⟩] }
        ⟨30, 1030, "c", 5⟩ 1000).1.alarm_list.Pairwise (fun a b => a.id ≤ b.id) :=
  have w := C14_list_sorted_by_id
    { State.init with alarm_list := [⟨10, 1010, "a", 3, 0⟩, ⟨20, 1020, "b", 7, 0⟩] }
    ⟨30, 1030, "c", 5, 0⟩ ⟨5, 5, 5⟩ []
    { AlarmMutex.State.init with alarm_list := [⟨10, 1010, "a", 3⟩, ⟨20, 1020, "b", 7⟩] }
    ⟨30, 1030, "c", 5⟩ 1000 []
    (by simp [State.init]) (by simp [AlarmMutex.State.init])
  ⟨w.1, w.2.1⟩

/-- C15: in both files the list after `alarm_insert` is the list before it with the new
alarm spliced in at one place: the entries in front of it (all with a smaller id) and
the entries behind it (the first of which, if any, has an id at least as large) are
those of the old list, unchanged and in the old order; the length grows by 1. -/
theorem C15_insert_splices_one_entry (s : State) (alarm : alarm_t)
    (s2 : AlarmMutex.State) (alarm2 : AlarmMutex.alarm_t) (now : Int) :
    (∃ pre post, s.alarm_list = pre ++ post
        ∧ (alarm_insert s alarm).1.alarm_list = pre ++ alarm :: post
        ∧ (∀ e ∈ pre, e.id < alarm.id)
        ∧ (∀ e, post.head? = some e → alarm.id ≤ e.id))
    ∧ (alarm_insert s alarm).1.alarm_list.length = s.alarm_list.length + 1
    ∧ (∃ pre post, s2.alarm_list = pre ++ post
        ∧ (AlarmMutex.alarm_insert s2 alarm2 now).1.alarm_list = pre ++ alarm2 :: post
        ∧ (∀ e ∈ pre, e.id < alarm2.id)
        ∧ (∀ e, post.head? = some e → alarm2.id ≤ e.id))
    ∧ (AlarmMutex.alarm_insert s2 alarm2 now).1.alarm_list.length
        = s2.alarm_list.length + 1 := by
  obtain ⟨pre, post, h1, h2, h3, h4⟩ := insert_list_splits s.alarm_list alarm
  obtain ⟨pre2, post2, k1, k2, k3, k4⟩ := AlarmMutex.am_insert_list_splits s2.alarm_list alarm2
  refine ⟨⟨pre, post, h1, by rw [alarm_insert_alarm_list]; exact h2, h3, h4⟩, ?_,
    ⟨pre2, post2, k1, by rw [AlarmMutex.am_alarm_insert_alarm_list]; exact k2, k3, k4⟩, ?_⟩
  · rw [alarm_insert_alarm_list, h2, h1]
    simp only [List.length_append, List.length_cons]
    omega
  · rw [AlarmMutex.am_alarm_insert_alarm_list, k2, k1]
    simp only [List.length_append, List.length_cons]
    omega

/-- C16: in both files, when the pending list holds an entry with the request's id,
`alarm_edit` succeeds, leaves the globals and so the whole pending list as they were,
and overwrites the message and seconds of the request record with those of the first
entry of the list that has the request's id. -/
theorem C16_edit_overwrites_the_request (s : State) (request : alarm_t)
    (s2 : AlarmMutex.State) (request2 : AlarmMutex.alarm_t)
    (h : ∃ e ∈ s.alarm_list, e.id = request.id)
    (h2 : ∃ e ∈ s2.alarm_list, e.id = request2.id) :
    (∃ pre next post, s.alarm_list = pre ++ next :: post
        ∧ (∀ e ∈ pre, e.id ≠ request.id) ∧ next.id = request.id
        ∧ (alarm_edit s request).status = Status.ok
        ∧ (alarm_edit s request).state = s
        ∧ (alarm_edit s request).state.alarm_list = s.alarm_list
        ∧ (alarm_edit s request).alarm
            = { request with message := next.message, seconds := next.seconds })
    ∧ (∃ pre next post, s2.alarm_list = pre ++ next :: post
        ∧ (∀ e ∈ pre, e.id ≠ request2.id) ∧ next.id = request2.id
        ∧ (AlarmMutex.alarm_edit s2 request2).status = Status.ok
        ∧ (AlarmMutex.alarm_edit s2 request2).state = s2
        ∧ (AlarmMutex.alarm_edit s2 request2).state.alarm_list = s2.alarm_list
        ∧ (AlarmMutex.alarm_edit s2 request2).alarm
            = { request2 with message := next.message, seconds := next.seconds }) := by
  obtain ⟨pre, next, post, h1, h3, h4, h5, h6⟩ := edit_loop_found s.alarm_list request h
  obtain ⟨pre2, next2, post2, k1, k3, k4, k5, k6⟩ :=
    AlarmMutex.am_edit_loop_found s2.alarm_list request2 h2
  have hs := alarm_edit_state s request
  have ks := AlarmMutex.am_alarm_edit_state s2 request2
  refine ⟨⟨pre, next, post, h1, h3, h4, ?_, hs, by rw [hs], ?_⟩,
    ⟨pre2, next2, post2, k1, k3, k4, ?_, ks, by rw [ks], ?_⟩⟩
  · simp [alarm_edit, h5]
  · rw [alarm_edit_alarm, h6]
  · simp [AlarmMutex.alarm_edit, k5]
  · rw [AlarmMutex.am_alarm_edit_alarm, k6]

/-- Witness of C16: alarms 3 ("a"), 7 ("b", 20 s) and 7 ("c", 30 s) are pending and the
request is `Change_Alarm(7): 5 z`; the request ends with seconds 20 and message "b". -/
theorem C16_edit_overwrites_the_request_witness :
    ((alarm_edit { State.init with alarm_list :=
          [⟨10, 1010, "a", 3, 0⟩, ⟨20, 1020, "b", 7, 0⟩, ⟨30, 1030, "c", 7, 0⟩] }
        ⟨5, 0, "z", 7, 0⟩).state.alarm_list
        = [⟨10, 1010, "a", 3, 0⟩, ⟨20, 1020, "b", 7, 0⟩, ⟨30, 1030, "c", 7, 0⟩]
      ∧ (alarm_edit { State.init with alarm_list :=
          [⟨10, 1010, "a", 3, 0⟩, ⟨20, 1020, "b", 7, 0⟩, ⟨30, 1030, "c", 7, 0⟩] }
        ⟨5, 0, "z", 7, 0⟩).status = Status.ok
      ∧ (alarm_edit { State.init with alarm_list :=
          [⟨10, 1010, "a", 3, 0⟩, ⟨20, 1020, "b", 7, 0⟩, ⟨30, 1030, "c", 7, 0⟩] }
        ⟨5, 0, "z", 7, 0⟩).alarm = ⟨20, 0, "b", 7, 0⟩)
    ∧ ((AlarmMutex.alarm_edit { AlarmMutex.State.init with alarm_list :=
          [⟨10, 1010, "a", 3⟩, ⟨20, 1020, "b", 7⟩, ⟨30, 1030, "c", 7⟩] }
        ⟨5, 0, "z", 7⟩).state.alarm_list
        = [⟨10, 1010, "a", 3⟩, ⟨20, 1020, "b", 7⟩, ⟨30, 1030, "c", 7⟩]
      ∧ (AlarmMutex.alarm_edit { AlarmMutex.State.init with alarm_list :=
          [⟨10, 1010, "a", 3⟩, ⟨20, 1020, "b", 7⟩, ⟨30, 1030, "c", 7⟩] }
        ⟨5, 0, "z", 7⟩).status = Status.ok) := by
  obtain ⟨⟨_, _, _, -, -, -, a1, -, a2, -⟩, ⟨_, _, _, -, -, -, b1, -, b2, -⟩⟩ :=
    C16_edit_overwrites_the_request
      { State.init with alarm_list :=
          [⟨10, 1010, "a", 3, 0⟩, ⟨20, 1020, "b", 7, 0⟩, ⟨30, 1030, "c", 7, 0⟩] }
      ⟨5, 0, "z", 7, 0⟩
      { AlarmMutex.State.init with alarm_list :=
          [⟨10, 1010, "a", 3⟩, ⟨20, 1020, "b", 7⟩, ⟨30, 1030, "c", 7⟩] }
      ⟨5, 0, "z", 7⟩
      ⟨⟨20, 1020, "b", 7, 0⟩, by simp [State.init], rfl⟩
      ⟨⟨20, 1020, "b", 7⟩, by simp [AlarmMutex.State.init], rfl⟩
  exact ⟨⟨a2, a1, by decide⟩, ⟨b2, b1⟩⟩

/-- C17: `isDigit` is never reset. Let a line pass `sscanf`, have `Start_Alarm` or
`Change_Alarm` as `comm` and an `id` that contains a character that is not a digit.
In both files the turn of `main`'s loop that processes it sets `isDigit` to 1 and calls
neither `alarm_insert` nor `alarm_edit`, and from then on, whatever the globals and
whatever lines follow, the loop makes no call and `isDigit` stays different from 0. -/
theorem C17_isDigit_is_never_reset (isDigit : Int) (line : List Char)
    (stale : Option (List Char)) (request : List Char) (seconds : Int)
    (message comm id : List Char)
    (s : State) (fresh : alarm_t) (now : Int)
    (s2 : AlarmMutex.State) (fresh2 : AlarmMutex.alarm_t)
    (hlen : 1 < line.length)
    (hscan : Libc.sscanf line = some (request, seconds, message))
    (hcomm : (main_tokens request stale).comm = some comm)
    (hc : comm = "Start_Alarm".toList ∨ comm = "Change_Alarm".toList)
    (hid : (main_tokens request stale).id = some id)
    (hnd : ∃ c ∈ id, Libc.isdigit c = false) :
    ((main_iteration isDigit s ⟨line, stale, fresh, now⟩).isDigit = 1
      ∧ (main_iteration isDigit s ⟨line, stale, fresh, now⟩).calls = []
      ∧ (∀ st later, (main_loop 1 st later).2.2 = [] ∧ (main_loop 1 st later).1 ≠ 0)
      ∧ ∀ later, (main_loop isDigit s (⟨line, stale, fresh, now⟩ :: later)).2.2 = [])
    ∧ ((AlarmMutex.main_iteration isDigit s2 ⟨line, stale, fresh2, now⟩).isDigit = 1
      ∧ (AlarmMutex.main_iteration isDigit s2 ⟨line, stale, fresh2, now⟩).calls = []
      ∧ (∀ st later, (AlarmMutex.main_loop 1 st later).2.2 = []
          ∧ (AlarmMutex.main_loop 1 st later).1 ≠ 0)
      ∧ ∀ later,
          (AlarmMutex.main_loop isDigit s2 (⟨line, stale, fresh2, now⟩ :: later)).2.2 = []) := by
  have hp := main_parse_nondigit isDigit line stale request seconds message comm id
    hlen hscan hcomm hc hid hnd
  have e1 : main_iteration isDigit s ⟨line, stale, fresh, now⟩
      = { isDigit := 1, state := s, calls := [], fault := false } := by
    simp only [main_iteration, hp]
  have e2 : AlarmMutex.main_iteration isDigit s2 ⟨line, stale, fresh2, now⟩
      = { isDigit := 1, state := s2, calls := [], fault := false } := by
    simp only [AlarmMutex.main_iteration, hp]
  refine ⟨⟨by rw [e1], by rw [e1],
      fun st later => main_loop_flag later 1 st one_ne_zero, ?_⟩,
    ⟨by rw [e2], by rw [e2],
      fun st later => AlarmMutex.am_main_loop_flag later 1 st one_ne_zero, ?_⟩⟩
  · intro later
    simp only [main_loop, e1, Bool.false_eq_true, if_false, List.nil_append]
    exact (main_loop_flag later 1 s one_ne_zero).1
  · intro later
    simp only [AlarmMutex.main_loop, e2, Bool.false_eq_true, if_false, List.nil_append]
    exact (AlarmMutex.am_main_loop_flag later 1 s2 one_ne_zero).1

/-- Witness of C17: after `Start_Alarm(1a): 5 x`, the well-formed line
`Start_Alarm(2): 5 y` leads to no call, in both files. -/
theorem C17_isDigit_is_never_reset_witness :
    (main_loop 0 State.init
        [⟨"Start_Alarm(1a): 5 x\n".toList, none, ⟨0, 0, "", 0, 0⟩, 1000⟩,
         ⟨"Start_Alarm(2): 5 y\n".toList, none, ⟨0, 0, "", 0, 0⟩, 1001⟩]).2.2 = []
    ∧ (AlarmMutex.main_loop 0 AlarmMutex.State.init
        [⟨"Start_Alarm(1a): 5 x\n".toList, none, ⟨0, 0, "", 0⟩, 1000⟩,
         ⟨"Start_Alarm(2): 5 y\n".toList, none, ⟨0, 0, "", 0⟩, 1001⟩]).2.2 = []
    ∧ (main_loop 0 State.init
        [⟨"Start_Alarm(2): 5 y\n".toList, none, ⟨0, 0, "", 0, 0⟩, 1001⟩]).2.2
      = [Call.alarm_insert ⟨5, 1006, "y", 2, 0⟩] :=
  have w := C17_isDigit_is_never_reset 0 "Start_Alarm(1a): 5 x\n".toList none
    "Start_Alarm(1a):".toList 5 "x".toList "Start_Alarm".toList "1a".toList
    State.init ⟨0, 0, "", 0, 0⟩ 1000 AlarmMutex.State.init ⟨0, 0, "", 0⟩
    (by decide) (by decide) (by decide) (Or.inl rfl) (by decide)
    ⟨'a', by decide, by decide⟩
  ⟨w.1.2.2.2 [⟨"Start_Alarm(2): 5 y\n".toList, none, ⟨0, 0, "", 0, 0⟩, 1001⟩],
   by
    have h := w.2.2.2.2 [⟨"Start_Alarm(2): 5 y\n".toList, none, ⟨0, 0, "", 0⟩, 1001⟩]
    exact h,
   by decide⟩

end NewAlarmMutex
